import Mathlib

/-!
Shallow embedding of the Job Lifecycle and Stock Ledger Engine of the
clutch-gear workshop backend, together with proofs of the specified
properties.

Money amounts are modelled as rationals; stock quantities as integers.
MongoDB document collections are modelled as maps from numeric ids to
documents; the in-request mongoose session (transaction) is modelled by
returning the original state unchanged whenever a handler aborts.
-/

namespace ClutchGear

/-! ## Billing calculator (src/models/jobcard.model.js, calculateBilling) -/

/-- JS Math.round rounds half toward positive infinity; the source rounds
money to two decimals via Math.round((n + EPSILON) * 100) / 100, where the
EPSILON correction only compensates binary floating point artifacts.  Over
the rationals this is floor(n * 100 + 1/2) / 100. -/
def round2 (q : ℚ) : ℚ := (⌊q * 100 + 1 / 2⌋ : ℤ) / 100

/-- Job item types (jobItemSchema.type enum). -/
inductive ItemType
  | labour
  | part
  | consumable
  | external
  deriving DecidableEq, Repr

/-- One line of jobItems[] (jobItemSchema). -/
structure JobItem where
  itemType : ItemType
  description : String
  quantity : ℚ
  unitPrice : ℚ
  discount : ℚ
  total : ℚ
  isApproved : Bool
  deriving DecidableEq, Repr

/-- The billing subdocument of a job card. -/
structure Billing where
  subtotal : ℚ
  discount : ℚ
  discountReason : String
  taxRate : ℚ
  taxAmount : ℚ
  grandTotal : ℚ
  deriving DecidableEq, Repr

/-- Direct translation of jobCardSchema.methods.calculateBilling: sums the
(optionally approved-only) item totals, clamps the discount at 0, computes
tax and grand total, and writes the three outputs rounded to two decimals,
with taxAmount and grandTotal additionally clamped at 0. -/
def calculateBilling (items : List JobItem) (billing : Billing)
    (onlyApproved : Bool) : Billing :=
  let usedItems := if onlyApproved then items.filter (·.isApproved) else items
  let subtotal := (usedItems.map (·.total)).sum
  let discount := max 0 billing.discount
  let afterDiscount := max 0 (subtotal - discount)
  let taxRate := billing.taxRate
  let taxAmount := afterDiscount * taxRate / 100
  let grandTotal := afterDiscount + taxAmount
  { billing with
    subtotal := round2 subtotal
    taxAmount := round2 (max 0 taxAmount)
    grandTotal := round2 (max 0 grandTotal) }

/-- Modelled from the spec: the billing formulas exactly as the specification
words them, with no clamping of taxAmount or grandTotal before rounding.
Used to compare the specified computation against calculateBilling. -/
def specBilling (items : List JobItem) (discount taxRate : ℚ) :
    ℚ × ℚ × ℚ :=
  let subtotal := (items.map (·.total)).sum
  let afterDiscount := max 0 (subtotal - max 0 discount)
  let taxAmount := afterDiscount * taxRate / 100
  let grandTotal := afterDiscount + taxAmount
  (round2 subtotal, round2 taxAmount, round2 grandTotal)

/-! ## Job card state (src/models/jobcard.model.js) -/

/-- Job card statuses (jobCardSchema.status enum). -/
inductive JStatus
  | created
  | inspection
  | awaitingApproval
  | approved
  | inProgress
  | qualityCheck
  | ready
  | delivered
  | cancelled
  deriving DecidableEq, Repr

/-- One statusHistory[] entry (status, actor, note); the wall-clock
changedAt timestamp is not modelled. -/
structure StatusEntry where
  status : JStatus
  changedBy : ℕ
  notes : String
  deriving DecidableEq, Repr

/-- The job card document, restricted to the fields the lifecycle engine
reads or writes (media, diagnostics and warranty fields are never consulted
by the state machine, billing or payment logic and are omitted).  The two
lifecycle timestamps are modelled as set/unset flags. -/
structure JobCard where
  status : JStatus
  jobItems : List JobItem
  billing : Billing
  statusHistory : List StatusEntry
  assignedMechanicUserIds : List ℕ
  actualCompletionSet : Bool
  deliveredAtSet : Bool
  deriving DecidableEq, Repr

/-- Direct translation of jobCardSchema.methods.updateStatus: sets the
status, keeps the lifecycle timestamps consistent, and appends a
statusHistory entry. -/
def JobCard.updateStatus (jc : JobCard) (newStatus : JStatus) (userId : ℕ)
    (notes : String) : JobCard :=
  let jc1 := { jc with status := newStatus }
  let jc2 :=
    if newStatus = .ready ∧ ¬jc1.actualCompletionSet then
      { jc1 with actualCompletionSet := true }
    else jc1
  let jc3 :=
    if newStatus = .delivered then
      { jc2 with
        deliveredAtSet := true
        actualCompletionSet := true }
    else jc2
  { jc3 with
    statusHistory := jc3.statusHistory ++
      [{ status := newStatus, changedBy := userId, notes := notes }] }

/-! ## Payments (src/models/payment.model.js) -/

/-- Payment types (paymentSchema.paymentType enum). -/
inductive PaymentType
  | advance
  | partialPayment
  | full
  | refund
  deriving DecidableEq, Repr

/-- Payment statuses (paymentSchema.status enum). -/
inductive PaymentStatus
  | pending
  | completed
  | failed
  | refunded
  deriving DecidableEq, Repr

/-- The hosted-checkout subdocument (token plus expiry). -/
structure Checkout where
  token : Option String
  expiresAt : Option ℤ
  deriving DecidableEq, Repr

/-- Refund details recorded on both the refund record and the original. -/
structure RefundDetails where
  refundedAmount : ℚ
  reason : String
  refundedBy : ℕ
  deriving DecidableEq, Repr

/-- The payment document, restricted to the fields the engine reads or
writes. -/
structure Payment where
  id : ℕ
  jobCard : ℕ
  customer : ℕ
  amount : ℚ
  paymentType : PaymentType
  paymentMethod : String
  status : PaymentStatus
  checkout : Option Checkout
  receivedBy : Option ℕ
  notes : String
  refundDetails : Option RefundDetails
  deriving DecidableEq, Repr

/-- Direct translation of the reduce inside
paymentSchema.statics.getJobCardPayments: the found payments summed with
refunds subtracted. -/
def signedTotal (payments : List Payment) : ℚ :=
  payments.foldl
    (fun sum p =>
      if p.paymentType = .refund then sum - p.amount else sum + p.amount) 0

/-- Result of Payment.getJobCardPayments(jobCardId): the completed payments
of the job card, their signed total, and their count. -/
def getJobCardPayments (payments : List Payment) (jobCardId : ℕ) :
    List Payment × ℚ × ℕ :=
  let found := payments.filter
    (fun p => p.jobCard = jobCardId ∧ p.status = .completed)
  (found, signedTotal found, found.length)

/-! ## Controller-level errors (src/utils ApiError) -/

/-- Error responses thrown by the controllers that matter to the claims. -/
inductive ApiErr
  | notFound (msg : String)
  | badRequest (msg : String)
  | forbidden (msg : String)
  | validation (msg : String)
  deriving DecidableEq, Repr

/-- Balance due as computed at the delivery gate of both status-update
handlers: max(0, grandTotal - totalPaid). -/
def balanceDueOf (jc : JobCard) (payments : List Payment)
    (jobCardId : ℕ) : ℚ :=
  max 0 (jc.billing.grandTotal - (getJobCardPayments payments jobCardId).2.1)

/-! ## Job card controllers (src/controllers/jobcard.controller.js) -/

/-- Status-change logic of the admin handler updateJobCard (lines 337-427).
Plain field updates (odometer, fuel level, diagnostics, mechanics, ETA,
notes) do not interact with the state machine and are not modelled.  On an
error the handler throws before jobCard.save(), so the stored document is
unchanged; the .error result models that. -/
def updateJobCard (jc : JobCard) (payments : List Payment) (jobCardId : ℕ)
    (status : Option JStatus) (userId : ℕ) : Except ApiErr JobCard :=
  match status with
  | some s =>
    if s ≠ jc.status then
      if s = .delivered then
        if jc.status ≠ .ready then
          .error (.badRequest
            "Job card must be marked ready before it can be delivered")
        else if balanceDueOf jc payments jobCardId > 1 / 100 then
          .error (.badRequest
            "Cannot mark delivered until payment is completed")
        else
          .ok (jc.updateStatus s userId "Status changed to delivered")
      else
        .ok (jc.updateStatus s userId "Status changed")
    else
      .ok jc
  | none => .ok jc

/-- Status-change logic of the mechanic handler updateAssignedJobCardStatus
(lines 556-591), including the assignment guard ensureMechanicAssigned. -/
def updateAssignedJobCardStatus (jc : JobCard) (payments : List Payment)
    (jobCardId : ℕ) (status : JStatus) (userId : ℕ) (notes : String) :
    Except ApiErr JobCard :=
  if userId ∉ jc.assignedMechanicUserIds then
    .error (.forbidden "You are not assigned to this job card")
  else if status ≠ jc.status then
    if status = .delivered then
      if jc.status ≠ .ready then
        .error (.badRequest
          "Job card must be marked ready before it can be delivered")
      else if balanceDueOf jc payments jobCardId > 1 / 100 then
        .error (.badRequest
          "Cannot mark delivered until payment is completed")
      else
        .ok (jc.updateStatus status userId notes)
    else
      .ok (jc.updateStatus status userId notes)
  else
    .ok jc

/-- Direct translation of the admin handler addJobItem (lines 639-673):
computes the clamped line total, pushes the item, and forces
awaiting-approval when the job is in inspection or in-progress.  There is
no job card status precondition in the source. -/
def addJobItem (jc : JobCard) (itemType : ItemType) (description : String)
    (quantity unitPrice discount : ℚ) (userId : ℕ) : JobCard :=
  let lineTotal := quantity * unitPrice
  let safeDiscount := min (max discount 0) lineTotal
  let total := max 0 (lineTotal - safeDiscount)
  let jc1 := { jc with
    jobItems := jc.jobItems ++
      [{ itemType := itemType, description := description,
         quantity := quantity, unitPrice := unitPrice,
         discount := safeDiscount, total := total, isApproved := false }] }
  if jc1.status = .inspection ∨ jc1.status = .inProgress then
    jc1.updateStatus .awaitingApproval userId "New items added for approval"
  else
    jc1

/-- Direct translation of the admin handler removeJobItem (lines 679-700):
removes the item at the given index and recomputes billing.  There is no
job card status precondition in the source. -/
def removeJobItem (jc : JobCard) (itemIndex : ℕ) : Except ApiErr JobCard :=
  if itemIndex < jc.jobItems.length then
    let jc1 := { jc with jobItems := jc.jobItems.eraseIdx itemIndex }
    .ok { jc1 with billing := calculateBilling jc1.jobItems jc1.billing false }
  else
    .error (.notFound "Job item not found")

/-! ## Payment controller (src/controllers/payment.controller.js) -/

/-- Direct translation of processRefund (lines 544-590) as a transformer of
the payment collection.  Checks are performed before any write; the refund
record creation enforces the schema validation amount >= 0; on any error
the collection is returned unchanged. -/
def processRefund (payments : List Payment) (paymentId : ℕ) (amount : ℚ)
    (reason : String) (userId : ℕ) (freshId : ℕ) :
    List Payment × Except ApiErr Payment :=
  match payments.find? (fun p => p.id = paymentId) with
  | none => (payments, .error (.notFound "Payment not found"))
  | some originalPayment =>
    if originalPayment.status ≠ .completed then
      (payments, .error (.badRequest "Can only refund completed payments"))
    else if amount > originalPayment.amount then
      (payments,
        .error (.badRequest "Refund amount cannot exceed original payment"))
    else if amount < 0 then
      (payments, .error (.validation "Amount cannot be negative"))
    else
      let refund : Payment :=
        { id := freshId
          jobCard := originalPayment.jobCard
          customer := originalPayment.customer
          amount := amount
          paymentType := .refund
          paymentMethod := originalPayment.paymentMethod
          status := .completed
          checkout := none
          receivedBy := some userId
          notes := "Refund"
          refundDetails := some
            { refundedAmount := amount, reason := reason,
              refundedBy := userId } }
      let updated := payments.map (fun p =>
        if p.id = paymentId then
          { p with
            status := .refunded
            refundDetails := some
              { refundedAmount := amount, reason := reason,
                refundedBy := userId } }
        else p)
      (updated ++ [refund], .ok refund)

/-! ## Payment JSON serialization (paymentSchema toJSON transform) -/

/-- Direct translation of the toJSON transform of paymentSchema: the
checkout token is deleted only when checkout exists and the token is
truthy, i.e. present and non-empty. -/
def paymentToJSON (p : Payment) : Payment :=
  match p.checkout with
  | some c =>
    match c.token with
    | some t =>
      if t ≠ "" then { p with checkout := some { c with token := none } }
      else p
    | none => p
  | none => p

/-! ## Inventory data model (src/models/inventory.model.js and the
inventory transaction model) -/

/-- One stock-keeping unit, keyed externally by its document id; fields
restricted to those the stock engine reads or writes. -/
structure SparePart where
  name : String
  currentStock : ℤ
  minStock : ℤ
  costPrice : ℚ
  sellingPrice : ℚ
  isActive : Bool
  deriving DecidableEq, Repr

/-- Ledger entry types (inventoryTransactionSchema.type enum).  The name
LType.ret stands for the source enum value "return", a Lean keyword. -/
inductive LType
  | purchase
  | sale
  | ret
  | adjustment
  | damage
  | transfer
  deriving DecidableEq, Repr

/-- Reference kinds of a ledger entry (reference.type enum). -/
inductive RefType
  | jobcard
  | purchase
  | manual
  deriving DecidableEq, Repr

/-- The polymorphic back-reference of a ledger entry. -/
structure LedgerRef where
  rtype : RefType
  rid : ℕ
  number : String
  deriving DecidableEq, Repr

/-- One InventoryTransaction document (immutable once written). -/
structure LedgerEntry where
  inventory : ℕ
  ltype : LType
  quantity : ℤ
  previousStock : ℤ
  newStock : ℤ
  unitPrice : ℚ
  totalAmount : ℚ
  reference : Option LedgerRef
  performedBy : ℕ
  notes : String
  deriving DecidableEq, Repr

/-- The persistent inventory state: the Inventory collection as a map from
document id to document, plus the append-only InventoryTransaction log in
chronological order. -/
structure InvState where
  parts : ℕ → Option SparePart
  ledger : List LedgerEntry

/-- Inventory.findById. -/
def findPart (st : InvState) (partId : ℕ) : Option SparePart :=
  st.parts partId

/-- sparePart.save(): stores the document under its id. -/
def savePart (st : InvState) (partId : ℕ) (sp : SparePart) : InvState :=
  { st with parts := fun q => if q = partId then some sp else st.parts q }

/-- InventoryTransaction.create: appends one immutable ledger entry. -/
def appendEntry (st : InvState) (e : LedgerEntry) : InvState :=
  { st with ledger := st.ledger ++ [e] }

/-- Stock of an item as an optional integer. -/
def stockOf (st : InvState) (partId : ℕ) : Option ℤ :=
  (st.parts partId).map SparePart.currentStock

/-- JS expression (unitPrice || sparePart.costPrice): an absent or zero
unit price falls back to the cost price. -/
def jsOrPrice (unitPrice : Option ℚ) (fallback : ℚ) : ℚ :=
  match unitPrice with
  | some v => if v = 0 then fallback else v
  | none => fallback

/-! ## Stock engine operations (inventory controller, src/unnamed/part_014) -/

/-- Direct translation of addStock (lines 378-436): rejects non-positive
quantities, writes the stock increment and one purchase ledger entry in one
transaction. -/
def addStock (st : InvState) (partId : ℕ) (quantity : ℤ)
    (unitPrice : Option ℚ) (notes : String) (userId : ℕ) :
    InvState × Except ApiErr (ℤ × ℤ) :=
  if quantity ≤ 0 then
    (st, .error (.badRequest "Quantity must be greater than 0"))
  else
    match findPart st partId with
    | none => (st, .error (.notFound "Spare part not found"))
    | some sparePart =>
      let previousStock := sparePart.currentStock
      let newStock := previousStock + quantity
      let price := jsOrPrice unitPrice sparePart.costPrice
      let st1 := appendEntry
        (savePart st partId { sparePart with currentStock := newStock })
        { inventory := partId, ltype := .purchase, quantity := quantity,
          previousStock := previousStock, newStock := newStock,
          unitPrice := price, totalAmount := quantity * price,
          reference := none, performedBy := userId, notes := notes }
      (st1, .ok (previousStock, newStock))

/-- Direct translation of deductStock (lines 443-509): rejects non-positive
quantities and insufficient stock, writes the decrement and one adjustment
or damage ledger entry in one transaction. -/
def deductStock (st : InvState) (partId : ℕ) (quantity : ℤ)
    (reason : String) (notes : String) (userId : ℕ) :
    InvState × Except ApiErr (ℤ × ℤ) :=
  if quantity ≤ 0 then
    (st, .error (.badRequest "Quantity must be greater than 0"))
  else
    match findPart st partId with
    | none => (st, .error (.notFound "Spare part not found"))
    | some sparePart =>
      if sparePart.currentStock < quantity then
        (st, .error (.badRequest
          ("Insufficient stock. Available: " ++
            toString sparePart.currentStock)))
      else
        let previousStock := sparePart.currentStock
        let newStock := previousStock - quantity
        let st1 := appendEntry
          (savePart st partId { sparePart with currentStock := newStock })
          { inventory := partId,
            ltype := if reason = "damage" then .damage else .adjustment,
            quantity := -quantity, previousStock := previousStock,
            newStock := newStock, unitPrice := 0, totalAmount := 0,
            reference := none, performedBy := userId, notes := notes }
        (st1, .ok (previousStock, newStock))

/-- Direct translation of adjustStock (lines 516-580): rejects negative
targets, sets the absolute stock level and writes one adjustment entry with
the signed difference in one transaction. -/
def adjustStock (st : InvState) (partId : ℕ) (newQuantity : ℤ)
    (notes : String) (userId : ℕ) :
    InvState × Except ApiErr (ℤ × ℤ × ℤ) :=
  if newQuantity < 0 then
    (st, .error (.badRequest "New quantity must be 0 or greater"))
  else
    match findPart st partId with
    | none => (st, .error (.notFound "Spare part not found"))
    | some sparePart =>
      let previousStock := sparePart.currentStock
      let difference := newQuantity - previousStock
      let st1 := appendEntry
        (savePart st partId { sparePart with currentStock := newQuantity })
        { inventory := partId, ltype := .adjustment,
          quantity := difference, previousStock := previousStock,
          newStock := newQuantity, unitPrice := 0, totalAmount := 0,
          reference := none, performedBy := userId,
          notes := notes }
      (st1, .ok (previousStock, newQuantity, difference))

/-- Direct translation of createSparePart (lines 207-280), restricted to
the stock-relevant effects: creates the document with the requested initial
stock (0 when absent) and, when that stock is positive, one initial
purchase ledger entry.  The fresh document id is a parameter. -/
def createSparePart (st : InvState) (freshId : ℕ) (name : String)
    (currentStock : ℤ) (minStock : ℤ) (costPrice sellingPrice : ℚ)
    (userId : ℕ) : InvState × Except ApiErr Unit :=
  match findPart st freshId with
  | some _ => (st, .error (.badRequest "Duplicate document id"))
  | none =>
    let sparePart : SparePart :=
      { name := name, currentStock := currentStock, minStock := minStock,
        costPrice := costPrice, sellingPrice := sellingPrice,
        isActive := true }
    let st1 := savePart st freshId sparePart
    let st2 :=
      if 0 < currentStock then
        appendEntry st1
          { inventory := freshId, ltype := .purchase,
            quantity := currentStock, previousStock := 0,
            newStock := currentStock, unitPrice := costPrice,
            totalAmount := currentStock * costPrice, reference := none,
            performedBy := userId, notes := "Initial stock entry" }
      else st1
    (st2, .ok ())

/-- One failing line reported by deductForInvoice. -/
structure DeductError where
  partId : ℕ
  error : String
  deriving DecidableEq, Repr

/-- One successful line reported by deductForInvoice. -/
structure DeductResult where
  partId : ℕ
  previousStock : ℤ
  deducted : ℤ
  newStock : ℤ
  deriving DecidableEq, Repr

/-- One successful line reported by returnFromInvoice. -/
structure ReturnResult where
  partId : ℕ
  previousStock : ℤ
  returned : ℤ
  newStock : ℤ
  deriving DecidableEq, Repr

/-- The interpolated insufficiency message of the deduction loop. -/
def insufficientMsg (available required : ℤ) : String :=
  "Insufficient stock. Available: " ++ toString available ++
    ", Required: " ++ toString required

/-- Loop body of deductForInvoice: a missing or insufficient line pushes an
error and leaves the working state alone; a satisfiable line decrements the
stock and appends one sale entry referencing the job card. -/
def dfiStep (jobCardId : ℕ) (invoiceNumber : String) (userId : ℕ)
    (acc : InvState × List DeductResult × List DeductError)
    (line : ℕ × ℤ) : InvState × List DeductResult × List DeductError :=
  let stW := acc.1
  let results := acc.2.1
  let errors := acc.2.2
  match findPart stW line.1 with
  | none =>
    (stW, results, errors ++ [{ partId := line.1, error := "Part not found" }])
  | some sparePart =>
    if sparePart.currentStock < line.2 then
      (stW, results, errors ++
        [{ partId := line.1,
           error := insufficientMsg sparePart.currentStock line.2 }])
    else
      let previousStock := sparePart.currentStock
      let newStock := previousStock - line.2
      let stW1 := appendEntry
        (savePart stW line.1 { sparePart with currentStock := newStock })
        { inventory := line.1, ltype := .sale, quantity := -line.2,
          previousStock := previousStock, newStock := newStock,
          unitPrice := sparePart.sellingPrice,
          totalAmount := line.2 * sparePart.sellingPrice,
          reference := some
            { rtype := .jobcard, rid := jobCardId, number := invoiceNumber },
          performedBy := userId, notes := "Used in invoice" }
      (stW1,
        results ++
          [{ partId := line.1, previousStock := previousStock,
             deducted := line.2, newStock := newStock }],
        errors)

/-- Direct translation of deductForInvoice (lines 754-858): all lines are
processed against the session state; if any line failed, the transaction is
aborted (the original state is returned) and the request errors with the
list of failing lines; otherwise the session commits. -/
def deductForInvoice (st : InvState) (parts : List (ℕ × ℤ))
    (jobCardId : ℕ) (invoiceNumber : String) (userId : ℕ) :
    InvState × Except (String × List DeductError) (List DeductResult) :=
  if parts = [] then
    (st, .error ("Parts array is required", []))
  else
    let run := parts.foldl (dfiStep jobCardId invoiceNumber userId)
      (st, [], [])
    if run.2.2 = [] then
      (run.1, .ok run.2.1)
    else
      (st, .error ("Stock deduction failed", run.2.2))

/-- Loop body of returnFromInvoice: a missing part is silently skipped; an
existing part has its stock re-credited with one return entry referencing
the job card. -/
def rfiStep (jobCardId : ℕ) (invoiceNumber : String) (reason : String)
    (userId : ℕ) (acc : InvState × List ReturnResult) (line : ℕ × ℤ) :
    InvState × List ReturnResult :=
  let stW := acc.1
  let results := acc.2
  match findPart stW line.1 with
  | none => (stW, results)
  | some sparePart =>
    let previousStock := sparePart.currentStock
    let newStock := previousStock + line.2
    let stW1 := appendEntry
      (savePart stW line.1 { sparePart with currentStock := newStock })
      { inventory := line.1, ltype := .ret, quantity := line.2,
        previousStock := previousStock, newStock := newStock,
        unitPrice := sparePart.sellingPrice,
        totalAmount := line.2 * sparePart.sellingPrice,
        reference := some
          { rtype := .jobcard, rid := jobCardId, number := invoiceNumber },
        performedBy := userId, notes := reason }
    (stW1,
      results ++
        [{ partId := line.1, previousStock := previousStock,
           returned := line.2, newStock := newStock }])

/-- Direct translation of returnFromInvoice (lines 865-935): every line is
processed, missing parts are skipped without error, and the transaction
always commits. -/
def returnFromInvoice (st : InvState) (parts : List (ℕ × ℤ))
    (jobCardId : ℕ) (invoiceNumber : String) (reason : String)
    (userId : ℕ) : InvState × Except ApiErr (List ReturnResult) :=
  if parts = [] then
    (st, .error (.badRequest "Parts array is required"))
  else
    let run := parts.foldl (rfiStep jobCardId invoiceNumber reason userId)
      (st, [])
    (run.1, .ok run.2)

/-! ## The stock operation language

All mutation paths of Inventory.currentStock in the source go through the
six handlers above; StockOp packages an arbitrary request to any of them,
and validReq captures exactly the route validation layer
(src/validators/inventory.validator.js) that guards each handler. -/

/-- One request to a stock-mutating handler. -/
inductive StockOp
  | create (freshId : ℕ) (name : String) (currentStock minStock : ℤ)
      (costPrice sellingPrice : ℚ)
  | add (partId : ℕ) (quantity : ℤ) (unitPrice : Option ℚ) (notes : String)
  | deduct (partId : ℕ) (quantity : ℤ) (reason notes : String)
  | adjust (partId : ℕ) (newQuantity : ℤ) (notes : String)
  | invoiceDeduct (parts : List (ℕ × ℤ)) (jobCardId : ℕ) (invoiceNumber : String)
  | invoiceReturn (parts : List (ℕ × ℤ)) (jobCardId : ℕ) (invoiceNumber : String)
      (reason : String)

/-- The express-validator rules in front of each handler: initial stock is
a non-negative integer, quantities are integers of at least 1, adjust
targets are non-negative, and invoice batches are non-empty with every line
quantity at least 1. -/
def validReq : StockOp → Prop
  | .create _ _ currentStock minStock _ _ => 0 ≤ currentStock ∧ 0 ≤ minStock
  | .add _ quantity _ _ => 1 ≤ quantity
  | .deduct _ quantity _ _ => 1 ≤ quantity
  | .adjust _ newQuantity _ => 0 ≤ newQuantity
  | .invoiceDeduct parts _ _ => parts ≠ [] ∧ ∀ l ∈ parts, 1 ≤ l.2
  | .invoiceReturn parts _ _ _ => parts ≠ [] ∧ ∀ l ∈ parts, 1 ≤ l.2

/-- Route validation is decidable. -/
instance (op : StockOp) : Decidable (validReq op) := by
  cases op <;> dsimp only [validReq] <;> infer_instance

/-- The state reached by dispatching one request (a rejected request leaves
the state unchanged, since every handler aborts its transaction). -/
def applyOp (st : InvState) (userId : ℕ) : StockOp → InvState
  | .create freshId name currentStock minStock costPrice sellingPrice =>
    (createSparePart st freshId name currentStock minStock costPrice
      sellingPrice userId).1
  | .add partId quantity unitPrice notes =>
    (addStock st partId quantity unitPrice notes userId).1
  | .deduct partId quantity reason notes =>
    (deductStock st partId quantity reason notes userId).1
  | .adjust partId newQuantity notes =>
    (adjustStock st partId newQuantity notes userId).1
  | .invoiceDeduct parts jobCardId invoiceNumber =>
    (deductForInvoice st parts jobCardId invoiceNumber userId).1
  | .invoiceReturn parts jobCardId invoiceNumber reason =>
    (returnFromInvoice st parts jobCardId invoiceNumber reason userId).1

/-- The state reached by a sequence of requests. -/
def applyOps (st : InvState) (userId : ℕ) (ops : List StockOp) : InvState :=
  ops.foldl (fun s op => applyOp s userId op) st

/-! ## Invariants and spec-side predicates -/

/-- The schema invariant on Inventory.currentStock (min 0). -/
def nonNeg (st : InvState) : Prop :=
  ∀ pid sp, st.parts pid = some sp → 0 ≤ sp.currentStock

/-- All ledger entries written for an item, oldest first. -/
def entriesFor (st : InvState) (pid : ℕ) : List LedgerEntry :=
  st.ledger.filter (fun e => e.inventory == pid)

/-- Every ledger entry balances: newStock = previousStock + quantity. -/
def entriesOk (st : InvState) : Prop :=
  ∀ e ∈ st.ledger, e.newStock = e.previousStock + e.quantity

/-- Every ledger entry references an item present in the collection
(documents are soft-deleted, never removed). -/
def refsLive (st : InvState) : Prop :=
  ∀ e ∈ st.ledger, st.parts e.inventory ≠ none

/-- A stock level agrees with an item ledger: it equals the previousStock
snapshot of the first entry plus the sum of all signed deltas (vacuous for
an item with no entries). -/
def chainAt (stock : ℤ) (es : List LedgerEntry) : Prop :=
  match es with
  | [] => True
  | e :: _ => stock = e.previousStock + (es.map (·.quantity)).sum

/-- The full ledger-consistency invariant of the stock engine. -/
def ledgerOk (st : InvState) : Prop :=
  entriesOk st ∧ refsLive st ∧
    ∀ pid sp, st.parts pid = some sp →
      chainAt sp.currentStock (entriesFor st pid)

/-- Modelled from the spec: a deduction batch is satisfiable when every
line, processed in order, finds its part holding at least the requested
quantity of remaining stock. -/
def batchOk : (ℕ → Option SparePart) → List (ℕ × ℤ) → Bool
  | _, [] => true
  | parts, line :: rest =>
    match parts line.1 with
    | none => false
    | some sp =>
      if line.2 ≤ sp.currentStock then
        batchOk (fun q => if q = line.1 then
            some { sp with currentStock := sp.currentStock - line.2 }
          else parts q) rest
      else false

/-- Total quantity a batch requests from one part id. -/
def reqTotal (parts : List (ℕ × ℤ)) (pid : ℕ) : ℤ :=
  ((parts.filter (fun l => l.1 == pid)).map (·.2)).sum

/-- A line that is unsatisfiable against the call-time state: its part is
missing or holds less stock than requested. -/
def lineFails (st : InvState) (l : ℕ × ℤ) : Bool :=
  match findPart st l.1 with
  | none => true
  | some sp => sp.currentStock < l.2

/-- A line whose part exists in the collection. -/
def lineExists (st : InvState) (l : ℕ × ℤ) : Bool :=
  (findPart st l.1).isSome

/-- The empty store: no items, no ledger entries. -/
def InvState.empty : InvState := { parts := fun _ => none, ledger := [] }

/-- Modelled from the spec, amended: the billing output formulas with the
clamping at zero that the source applies to the taxAmount and grandTotal
output fields before rounding. -/
def specBillingAmended (items : List JobItem) (discount taxRate : ℚ) :
    ℚ × ℚ × ℚ :=
  let subtotal := (items.map (·.total)).sum
  let afterDiscount := max 0 (subtotal - max 0 discount)
  let taxAmount := afterDiscount * taxRate / 100
  let grandTotal := afterDiscount + taxAmount
  (round2 subtotal, round2 (max 0 taxAmount), round2 (max 0 grandTotal))

/-- A delivered job card with one approved item, used to exercise the
absence of terminal-state guards. -/
def jcDelivered : JobCard :=
  { status := .delivered
    jobItems := [{ itemType := .part, description := "Brake pad",
                   quantity := 1, unitPrice := 100, discount := 0,
                   total := 100, isApproved := true }]
    billing := { subtotal := 100, discount := 0, discountReason := "",
                 taxRate := 18, taxAmount := 18, grandTotal := 118 }
    statusHistory := []
    assignedMechanicUserIds := [5]
    actualCompletionSet := true
    deliveredAtSet := true }

/-- A store holding one item (id 1) with 5 units in stock, used by the
batch-deduction counterexample. -/
def cxStore : InvState :=
  { parts := fun pid =>
      if pid = 1 then
        some { name := "Oil filter", currentStock := 5, minStock := 1,
               costPrice := 40, sellingPrice := 60, isActive := true }
      else none
    ledger := [] }

/-- A job card waiting for delivery with the scenario billing total of
212.40, assigned to mechanic 5. -/
def jcReady : JobCard :=
  { status := .ready
    jobItems := [{ itemType := .labour, description := "Full service",
                   quantity := 2, unitPrice := 100, discount := 0,
                   total := 200, isApproved := true }]
    billing := { subtotal := 200, discount := 20, discountReason := "",
                 taxRate := 18, taxAmount := 162 / 5,
                 grandTotal := 1062 / 5 }
    statusHistory := []
    assignedMechanicUserIds := [5]
    actualCompletionSet := false
    deliveredAtSet := false }

/-- A completed full payment of 212.40 against job card 1. -/
def paymentsFull : List Payment :=
  [{ id := 1, jobCard := 1, customer := 2, amount := 1062 / 5,
     paymentType := .full, paymentMethod := "cash", status := .completed,
     checkout := none, receivedBy := some 3, notes := "",
     refundDetails := none }]

/-- A pending payment carrying a hosted-checkout token. -/
def cxPayment : Payment :=
  { id := 1, jobCard := 1, customer := 2, amount := 50,
    paymentType := .advance, paymentMethod := "upi", status := .pending,
    checkout := some { token := some "", expiresAt := some 100 },
    receivedBy := none, notes := "", refundDetails := none }

/-- Replaces the checkout token of a payment, leaving every other field
(including the checkout expiry) unchanged. -/
def setCheckoutToken (p : Payment) (t : Option String) : Payment :=
  { p with checkout := p.checkout.map (fun c => { c with token := t }) }

/-! ## Basic state lemmas -/

theorem findPart_savePart (st : InvState) (partId : ℕ) (sp : SparePart)
    (q : ℕ) :
    findPart (savePart st partId sp) q =
      if q = partId then some sp else findPart st q := rfl

theorem findPart_appendEntry (st : InvState) (e : LedgerEntry) (q : ℕ) :
    findPart (appendEntry st e) q = findPart st q := rfl

theorem ledger_savePart (st : InvState) (partId : ℕ) (sp : SparePart) :
    (savePart st partId sp).ledger = st.ledger := rfl

theorem ledger_appendEntry (st : InvState) (e : LedgerEntry) :
    (appendEntry st e).ledger = st.ledger ++ [e] := rfl

theorem entriesFor_appendEntry (st : InvState) (e : LedgerEntry) (pid : ℕ) :
    entriesFor (appendEntry st e) pid =
      entriesFor st pid ++ if e.inventory = pid then [e] else [] := by
  by_cases h : e.inventory = pid <;>
    simp [entriesFor, ledger_appendEntry, List.filter_append, h]

theorem entriesFor_savePart (st : InvState) (partId : ℕ) (sp : SparePart)
    (pid : ℕ) :
    entriesFor (savePart st partId sp) pid = entriesFor st pid := rfl

theorem stockOf_savePart (st : InvState) (partId : ℕ) (sp : SparePart)
    (q : ℕ) :
    stockOf (savePart st partId sp) q =
      if q = partId then some sp.currentStock else stockOf st q := by
  simp only [stockOf, savePart]
  by_cases h : q = partId <;> simp [h]

theorem stockOf_appendEntry (st : InvState) (e : LedgerEntry) (q : ℕ) :
    stockOf (appendEntry st e) q = stockOf st q := rfl

/-- The single-step write pattern shared by every committing stock
operation preserves the ledger-consistency invariant. -/
theorem ledgerOk_commit (st : InvState) (partId : ℕ) (sp : SparePart)
    (e : LedgerEntry) (hfind : findPart st partId = some sp)
    (hid : e.inventory = partId)
    (hprev : e.previousStock = sp.currentStock)
    (hnew : e.newStock = e.previousStock + e.quantity)
    (hok : ledgerOk st) :
    ledgerOk (appendEntry
      (savePart st partId { sp with currentStock := e.newStock }) e) := by
  obtain ⟨hEntries, hRefs, hChain⟩ := hok
  refine ⟨?_, ?_, ?_⟩
  · intro x hx
    rw [ledger_appendEntry, ledger_savePart, List.mem_append,
      List.mem_singleton] at hx
    rcases hx with hx | rfl
    · exact hEntries x hx
    · exact hnew
  · intro x hx
    rw [ledger_appendEntry, ledger_savePart, List.mem_append,
      List.mem_singleton] at hx
    show findPart _ x.inventory ≠ none
    rw [findPart_appendEntry, findPart_savePart]
    rcases hx with hx | rfl
    · by_cases hq : x.inventory = partId <;> simp [hq]
      exact hRefs x hx
    · simp [hid]
  · intro pid s hs
    have hparts :
        (appendEntry (savePart st partId
          { sp with currentStock := e.newStock }) e).parts pid =
        if pid = partId then
          some { sp with currentStock := e.newStock }
        else st.parts pid := rfl
    rw [hparts] at hs
    by_cases hq : pid = partId
    · subst hq
      have hcur : s.currentStock = e.newStock := by
        have hs3 : { sp with currentStock := e.newStock } = s := by
          simpa using hs
        rw [← hs3]
      rw [hcur, entriesFor_appendEntry, entriesFor_savePart, if_pos hid]
      have hold := hChain pid sp hfind
      cases hes : entriesFor st pid with
      | nil =>
        simp only [hes, List.nil_append, chainAt, List.map_cons,
          List.map_nil, List.sum_cons, List.sum_nil]
        omega
      | cons e0 rest =>
        have hold2 := hold
        rw [hes] at hold2
        rw [List.cons_append]
        simp only [chainAt] at hold2 ⊢
        simp only [List.map_append, List.sum_append, List.map_cons,
          List.sum_cons, List.map_nil, List.sum_nil] at hold2 ⊢
        omega
    · simp only [if_neg hq] at hs
      have hne : ¬(e.inventory = pid) := by
        rw [hid]
        exact fun h => hq h.symm
      rw [entriesFor_appendEntry, entriesFor_savePart, if_neg hne]
      simp only [List.append_nil]
      exact hChain pid s hs

/-- The single-step write pattern preserves non-negative stock when the
stored level is non-negative. -/
theorem nonNeg_commit (st : InvState) (partId : ℕ) (sp : SparePart)
    (newStock : ℤ) (e : LedgerEntry) (hpos : 0 ≤ newStock)
    (hnn : nonNeg st) :
    nonNeg (appendEntry
      (savePart st partId { sp with currentStock := newStock }) e) := by
  intro pid s hs
  have hparts :
      (appendEntry (savePart st partId
        { sp with currentStock := newStock }) e).parts pid =
      if pid = partId then some { sp with currentStock := newStock }
      else st.parts pid := rfl
  rw [hparts] at hs
  by_cases hq : pid = partId
  · simp only [if_pos hq, Option.some.injEq] at hs
    subst hs
    exact hpos
  · simp only [if_neg hq] at hs
    exact hnn pid s hs

/-- Fold preservation helper. -/
theorem foldl_state_preserve {σ β : Type} (P : σ → Prop) (f : σ → β → σ) :
    ∀ (l : List β) (s : σ), P s → (∀ a b, b ∈ l → P a → P (f a b)) →
      P (l.foldl f s) := by
  intro l
  induction l with
  | nil => intro s h _; exact h
  | cons b rest ih =>
    intro s h hf
    exact ih (f s b) (hf s b (List.mem_cons_self b rest) h)
      (fun a c hc ha => hf a c (List.mem_cons_of_mem b hc) ha)

/-- An item absent from the collection has no ledger entries (consequence
of refsLive). -/
theorem entriesFor_eq_nil_of_absent (st : InvState) (pid : ℕ)
    (hrefs : refsLive st) (habs : st.parts pid = none) :
    entriesFor st pid = [] := by
  rw [entriesFor, List.filter_eq_nil_iff]
  intro e he hmem
  exact hrefs e he (by
    have : e.inventory = pid := by simpa using hmem
    rw [this, habs])

theorem ledgerOk_addStock (st : InvState) (partId : ℕ) (quantity : ℤ)
    (unitPrice : Option ℚ) (notes : String) (userId : ℕ)
    (h : ledgerOk st) :
    ledgerOk (addStock st partId quantity unitPrice notes userId).1 := by
  unfold addStock
  by_cases hq : quantity ≤ 0
  · rw [if_pos hq]; exact h
  · rw [if_neg hq]
    cases hfp : findPart st partId with
    | none => exact h
    | some sparePart =>
      exact ledgerOk_commit st partId sparePart _ hfp rfl rfl rfl h

theorem ledgerOk_deductStock (st : InvState) (partId : ℕ) (quantity : ℤ)
    (reason notes : String) (userId : ℕ) (h : ledgerOk st) :
    ledgerOk (deductStock st partId quantity reason notes userId).1 := by
  unfold deductStock
  by_cases hq : quantity ≤ 0
  · rw [if_pos hq]; exact h
  · rw [if_neg hq]
    cases hfp : findPart st partId with
    | none => exact h
    | some sparePart =>
      by_cases hins : sparePart.currentStock < quantity
      · simp only [if_pos hins]; exact h
      · simp only [if_neg hins]
        exact ledgerOk_commit st partId sparePart _ hfp rfl rfl
          (by show sparePart.currentStock - quantity =
                sparePart.currentStock + -quantity
              ring) h

theorem ledgerOk_adjustStock (st : InvState) (partId : ℕ)
    (newQuantity : ℤ) (notes : String) (userId : ℕ) (h : ledgerOk st) :
    ledgerOk (adjustStock st partId newQuantity notes userId).1 := by
  unfold adjustStock
  by_cases hq : newQuantity < 0
  · rw [if_pos hq]; exact h
  · rw [if_neg hq]
    cases hfp : findPart st partId with
    | none => exact h
    | some sparePart =>
      exact ledgerOk_commit st partId sparePart _ hfp rfl rfl
        (by show newQuantity =
              sparePart.currentStock + (newQuantity - sparePart.currentStock)
            ring) h

theorem ledgerOk_createSparePart (st : InvState) (freshId : ℕ)
    (name : String) (currentStock minStock : ℤ) (costPrice sellingPrice : ℚ)
    (userId : ℕ) (h : ledgerOk st) :
    ledgerOk (createSparePart st freshId name currentStock minStock
      costPrice sellingPrice userId).1 := by
  obtain ⟨hEntries, hRefs, hChain⟩ := h
  unfold createSparePart
  cases hfp : findPart st freshId with
  | some sp => exact ⟨hEntries, hRefs, hChain⟩
  | none =>
    have hnil : entriesFor st freshId = [] :=
      entriesFor_eq_nil_of_absent st freshId hRefs hfp
    dsimp only
    by_cases hcs : 0 < currentStock
    · rw [if_pos hcs]
      refine ⟨?_, ?_, ?_⟩
      · intro x hx
        rw [ledger_appendEntry, ledger_savePart, List.mem_append,
          List.mem_singleton] at hx
        rcases hx with hx | rfl
        · exact hEntries x hx
        · show currentStock = 0 + currentStock
          omega
      · intro x hx
        rw [ledger_appendEntry, ledger_savePart, List.mem_append,
          List.mem_singleton] at hx
        show findPart _ x.inventory ≠ none
        rw [findPart_appendEntry, findPart_savePart]
        rcases hx with hx | rfl
        · by_cases hq : x.inventory = freshId <;> simp [hq]
          exact hRefs x hx
        · simp
      · intro pid s hs
        have hs2 : (if pid = freshId then
            some ({ name := name, currentStock := currentStock,
                    minStock := minStock, costPrice := costPrice,
                    sellingPrice := sellingPrice,
                    isActive := true } : SparePart)
          else st.parts pid) = some s := hs
        clear hs
        by_cases hq : pid = freshId
        · subst hq
          have hcur : s.currentStock = currentStock := by
            have hs3 := hs2
            rw [if_pos rfl] at hs3
            rw [← Option.some.inj hs3]
          rw [hcur, entriesFor_appendEntry, entriesFor_savePart,
            if_pos rfl, hnil, List.nil_append]
          simp only [chainAt, List.map_cons, List.map_nil, List.sum_cons,
            List.sum_nil]
          omega
        · rw [if_neg hq] at hs2
          rw [entriesFor_appendEntry, entriesFor_savePart,
            if_neg (fun hh : freshId = pid => hq hh.symm)]
          simp only [List.append_nil]
          exact hChain pid s hs2
    · rw [if_neg hcs]
      refine ⟨hEntries, ?_, ?_⟩
      · intro x hx
        show findPart _ x.inventory ≠ none
        rw [findPart_savePart]
        by_cases hq : x.inventory = freshId <;> simp [hq]
        exact hRefs x hx
      · intro pid s hs
        have hs2 : (if pid = freshId then
            some ({ name := name, currentStock := currentStock,
                    minStock := minStock, costPrice := costPrice,
                    sellingPrice := sellingPrice,
                    isActive := true } : SparePart)
          else st.parts pid) = some s := hs
        clear hs
        by_cases hq : pid = freshId
        · subst hq
          rw [entriesFor_savePart, hnil]
          exact trivial
        · rw [if_neg hq] at hs2
          rw [entriesFor_savePart]
          exact hChain pid s hs2

theorem ledgerOk_dfiStep (jobCardId : ℕ) (invoiceNumber : String)
    (userId : ℕ) (acc : InvState × List DeductResult × List DeductError)
    (line : ℕ × ℤ) (h : ledgerOk acc.1) :
    ledgerOk (dfiStep jobCardId invoiceNumber userId acc line).1 := by
  unfold dfiStep
  dsimp only
  cases hfp : findPart acc.1 line.1 with
  | none => exact h
  | some sparePart =>
    by_cases hins : sparePart.currentStock < line.2
    · simp only [if_pos hins]; exact h
    · simp only [if_neg hins]
      exact ledgerOk_commit acc.1 line.1 sparePart _ hfp rfl rfl
        (by show sparePart.currentStock - line.2 =
              sparePart.currentStock + -line.2
            ring) h

theorem ledgerOk_rfiStep (jobCardId : ℕ) (invoiceNumber reason : String)
    (userId : ℕ) (acc : InvState × List ReturnResult) (line : ℕ × ℤ)
    (h : ledgerOk acc.1) :
    ledgerOk (rfiStep jobCardId invoiceNumber reason userId acc line).1 := by
  unfold rfiStep
  dsimp only
  cases hfp : findPart acc.1 line.1 with
  | none => exact h
  | some sparePart =>
    exact ledgerOk_commit acc.1 line.1 sparePart _ hfp rfl rfl rfl h

theorem ledgerOk_deductForInvoice (st : InvState) (parts : List (ℕ × ℤ))
    (jobCardId : ℕ) (invoiceNumber : String) (userId : ℕ)
    (h : ledgerOk st) :
    ledgerOk (deductForInvoice st parts jobCardId invoiceNumber userId).1
    := by
  unfold deductForInvoice
  by_cases hp : parts = []
  · rw [if_pos hp]; exact h
  · rw [if_neg hp]
    dsimp only
    by_cases herr :
        (parts.foldl (dfiStep jobCardId invoiceNumber userId)
          (st, [], [])).2.2 = []
    · rw [if_pos herr]
      exact foldl_state_preserve (fun acc => ledgerOk acc.1) _ parts
        (st, [], []) h
        (fun a b _ ha => ledgerOk_dfiStep jobCardId invoiceNumber userId
          a b ha)
    · rw [if_neg herr]; exact h

theorem ledgerOk_returnFromInvoice (st : InvState) (parts : List (ℕ × ℤ))
    (jobCardId : ℕ) (invoiceNumber reason : String) (userId : ℕ)
    (h : ledgerOk st) :
    ledgerOk (returnFromInvoice st parts jobCardId invoiceNumber reason
      userId).1 := by
  unfold returnFromInvoice
  by_cases hp : parts = []
  · rw [if_pos hp]; exact h
  · rw [if_neg hp]
    exact foldl_state_preserve (fun acc => ledgerOk acc.1) _ parts
      (st, []) h
      (fun a b _ ha => ledgerOk_rfiStep jobCardId invoiceNumber reason
        userId a b ha)

/-- Every stock request preserves the ledger-consistency invariant. -/
theorem ledgerOk_applyOp (st : InvState) (userId : ℕ) (op : StockOp)
    (h : ledgerOk st) : ledgerOk (applyOp st userId op) := by
  cases op with
  | create freshId name currentStock minStock costPrice sellingPrice =>
    exact ledgerOk_createSparePart st freshId name currentStock minStock
      costPrice sellingPrice userId h
  | add partId quantity unitPrice notes =>
    exact ledgerOk_addStock st partId quantity unitPrice notes userId h
  | deduct partId quantity reason notes =>
    exact ledgerOk_deductStock st partId quantity reason notes userId h
  | adjust partId newQuantity notes =>
    exact ledgerOk_adjustStock st partId newQuantity notes userId h
  | invoiceDeduct parts jobCardId invoiceNumber =>
    exact ledgerOk_deductForInvoice st parts jobCardId invoiceNumber userId h
  | invoiceReturn parts jobCardId invoiceNumber reason =>
    exact ledgerOk_returnFromInvoice st parts jobCardId invoiceNumber reason
      userId h

theorem ledgerOk_applyOps (userId : ℕ) (ops : List StockOp) (st : InvState)
    (h : ledgerOk st) : ledgerOk (applyOps st userId ops) :=
  foldl_state_preserve ledgerOk _ ops st h
    (fun a op _ ha => ledgerOk_applyOp a userId op ha)

/-! ## Non-negativity preservation -/

theorem nonNeg_addStock (st : InvState) (partId : ℕ) (quantity : ℤ)
    (unitPrice : Option ℚ) (notes : String) (userId : ℕ)
    (h : nonNeg st) :
    nonNeg (addStock st partId quantity unitPrice notes userId).1 := by
  unfold addStock
  by_cases hq : quantity ≤ 0
  · rw [if_pos hq]; exact h
  · rw [if_neg hq]
    cases hfp : findPart st partId with
    | none => exact h
    | some sparePart =>
      have hsp := h partId sparePart hfp
      exact nonNeg_commit st partId sparePart _ _ (by omega) h

theorem nonNeg_deductStock (st : InvState) (partId : ℕ) (quantity : ℤ)
    (reason notes : String) (userId : ℕ) (h : nonNeg st) :
    nonNeg (deductStock st partId quantity reason notes userId).1 := by
  unfold deductStock
  by_cases hq : quantity ≤ 0
  · rw [if_pos hq]; exact h
  · rw [if_neg hq]
    cases hfp : findPart st partId with
    | none => exact h
    | some sparePart =>
      by_cases hins : sparePart.currentStock < quantity
      · simp only [if_pos hins]; exact h
      · simp only [if_neg hins]
        exact nonNeg_commit st partId sparePart _ _ (by omega) h

theorem nonNeg_adjustStock (st : InvState) (partId : ℕ) (newQuantity : ℤ)
    (notes : String) (userId : ℕ) (h : nonNeg st) :
    nonNeg (adjustStock st partId newQuantity notes userId).1 := by
  unfold adjustStock
  by_cases hq : newQuantity < 0
  · rw [if_pos hq]; exact h
  · rw [if_neg hq]
    cases hfp : findPart st partId with
    | none => exact h
    | some sparePart =>
      exact nonNeg_commit st partId sparePart _ _ (by omega) h

theorem nonNeg_createSparePart (st : InvState) (freshId : ℕ)
    (name : String) (currentStock minStock : ℤ) (costPrice sellingPrice : ℚ)
    (userId : ℕ) (hcs : 0 ≤ currentStock) (h : nonNeg st) :
    nonNeg (createSparePart st freshId name currentStock minStock
      costPrice sellingPrice userId).1 := by
  unfold createSparePart
  cases hfp : findPart st freshId with
  | some sp => exact h
  | none =>
    dsimp only
    have hsave : nonNeg (savePart st freshId
        { name := name, currentStock := currentStock, minStock := minStock,
          costPrice := costPrice, sellingPrice := sellingPrice,
          isActive := true }) := by
      intro pid s hs
      have hs2 : (if pid = freshId then
          some ({ name := name, currentStock := currentStock,
                  minStock := minStock, costPrice := costPrice,
                  sellingPrice := sellingPrice,
                  isActive := true } : SparePart)
        else st.parts pid) = some s := hs
      by_cases hq : pid = freshId
      · rw [if_pos hq] at hs2
        rw [← Option.some.inj hs2]
        exact hcs
      · rw [if_neg hq] at hs2
        exact h pid s hs2
    by_cases hpos : 0 < currentStock
    · rw [if_pos hpos]
      intro pid s hs
      exact hsave pid s hs
    · rw [if_neg hpos]
      exact hsave

theorem nonNeg_dfiStep (jobCardId : ℕ) (invoiceNumber : String)
    (userId : ℕ) (acc : InvState × List DeductResult × List DeductError)
    (line : ℕ × ℤ) (h : nonNeg acc.1) :
    nonNeg (dfiStep jobCardId invoiceNumber userId acc line).1 := by
  unfold dfiStep
  dsimp only
  cases hfp : findPart acc.1 line.1 with
  | none => exact h
  | some sparePart =>
    by_cases hins : sparePart.currentStock < line.2
    · simp only [if_pos hins]; exact h
    · simp only [if_neg hins]
      exact nonNeg_commit acc.1 line.1 sparePart _ _ (by omega) h

theorem nonNeg_rfiStep (jobCardId : ℕ) (invoiceNumber reason : String)
    (userId : ℕ) (acc : InvState × List ReturnResult) (line : ℕ × ℤ)
    (hq : 0 ≤ line.2) (h : nonNeg acc.1) :
    nonNeg (rfiStep jobCardId invoiceNumber reason userId acc line).1 := by
  unfold rfiStep
  dsimp only
  cases hfp : findPart acc.1 line.1 with
  | none => exact h
  | some sparePart =>
    have hsp := h line.1 sparePart hfp
    exact nonNeg_commit acc.1 line.1 sparePart _ _ (by omega) h

theorem nonNeg_deductForInvoice (st : InvState) (parts : List (ℕ × ℤ))
    (jobCardId : ℕ) (invoiceNumber : String) (userId : ℕ) (h : nonNeg st) :
    nonNeg (deductForInvoice st parts jobCardId invoiceNumber userId).1
    := by
  unfold deductForInvoice
  by_cases hp : parts = []
  · rw [if_pos hp]; exact h
  · rw [if_neg hp]
    dsimp only
    by_cases herr :
        (parts.foldl (dfiStep jobCardId invoiceNumber userId)
          (st, [], [])).2.2 = []
    · rw [if_pos herr]
      exact foldl_state_preserve (fun acc => nonNeg acc.1) _ parts
        (st, [], []) h
        (fun a b _ ha => nonNeg_dfiStep jobCardId invoiceNumber userId
          a b ha)
    · rw [if_neg herr]; exact h

theorem nonNeg_returnFromInvoice (st : InvState) (parts : List (ℕ × ℤ))
    (jobCardId : ℕ) (invoiceNumber reason : String) (userId : ℕ)
    (hq : ∀ l ∈ parts, 1 ≤ l.2) (h : nonNeg st) :
    nonNeg (returnFromInvoice st parts jobCardId invoiceNumber reason
      userId).1 := by
  unfold returnFromInvoice
  by_cases hp : parts = []
  · rw [if_pos hp]; exact h
  · rw [if_neg hp]
    exact foldl_state_preserve (fun acc => nonNeg acc.1) _ parts
      (st, []) h
      (fun a b hb ha => nonNeg_rfiStep jobCardId invoiceNumber reason
        userId a b (le_trans (by omega) (hq b hb)) ha)

/-- Every validated stock request preserves non-negative stock. -/
theorem nonNeg_applyOp (st : InvState) (userId : ℕ) (op : StockOp)
    (hv : validReq op) (h : nonNeg st) : nonNeg (applyOp st userId op) := by
  cases op with
  | create freshId name currentStock minStock costPrice sellingPrice =>
    exact nonNeg_createSparePart st freshId name currentStock minStock
      costPrice sellingPrice userId hv.1 h
  | add partId quantity unitPrice notes =>
    exact nonNeg_addStock st partId quantity unitPrice notes userId h
  | deduct partId quantity reason notes =>
    exact nonNeg_deductStock st partId quantity reason notes userId h
  | adjust partId newQuantity notes =>
    exact nonNeg_adjustStock st partId newQuantity notes userId h
  | invoiceDeduct parts jobCardId invoiceNumber =>
    exact nonNeg_deductForInvoice st parts jobCardId invoiceNumber userId h
  | invoiceReturn parts jobCardId invoiceNumber reason =>
    exact nonNeg_returnFromInvoice st parts jobCardId invoiceNumber reason
      userId hv.2 h

theorem nonNeg_applyOps (userId : ℕ) (ops : List StockOp) (st : InvState)
    (hv : ∀ op ∈ ops, validReq op) (h : nonNeg st) :
    nonNeg (applyOps st userId ops) :=
  foldl_state_preserve nonNeg _ ops st h
    (fun a op hop ha => nonNeg_applyOp a userId op (hv op hop) ha)

/-! ## Analysis of the deductForInvoice loop -/

theorem reqTotal_nil (pid : ℕ) : reqTotal [] pid = 0 := rfl

theorem reqTotal_cons (l : ℕ × ℤ) (rest : List (ℕ × ℤ)) (pid : ℕ) :
    reqTotal (l :: rest) pid =
      (if l.1 = pid then l.2 else 0) + reqTotal rest pid := by
  by_cases h : l.1 = pid <;>
    simp [reqTotal, List.filter_cons, h]

theorem dfiStep_missing (jobCardId : ℕ) (invoiceNumber : String)
    (userId : ℕ) (st : InvState) (rs : List DeductResult)
    (es : List DeductError) (line : ℕ × ℤ)
    (hfp : findPart st line.1 = none) :
    dfiStep jobCardId invoiceNumber userId (st, rs, es) line =
      (st, rs, es ++ [{ partId := line.1, error := "Part not found" }]) := by
  unfold dfiStep
  dsimp only
  rw [hfp]

theorem dfiStep_short (jobCardId : ℕ) (invoiceNumber : String)
    (userId : ℕ) (st : InvState) (rs : List DeductResult)
    (es : List DeductError) (line : ℕ × ℤ) (sp : SparePart)
    (hfp : findPart st line.1 = some sp)
    (hlt : sp.currentStock < line.2) :
    dfiStep jobCardId invoiceNumber userId (st, rs, es) line =
      (st, rs,
        es ++ [{ partId := line.1,
                 error := insufficientMsg sp.currentStock line.2 }]) := by
  unfold dfiStep
  dsimp only
  rw [hfp]
  dsimp only
  rw [if_pos hlt]

theorem dfiStep_found (jobCardId : ℕ) (invoiceNumber : String)
    (userId : ℕ) (st : InvState) (rs : List DeductResult)
    (es : List DeductError) (line : ℕ × ℤ) (sp : SparePart)
    (hfp : findPart st line.1 = some sp)
    (hle : line.2 ≤ sp.currentStock) :
    dfiStep jobCardId invoiceNumber userId (st, rs, es) line =
      (appendEntry (savePart st line.1
          { sp with currentStock := sp.currentStock - line.2 })
        { inventory := line.1, ltype := .sale, quantity := -line.2,
          previousStock := sp.currentStock,
          newStock := sp.currentStock - line.2,
          unitPrice := sp.sellingPrice,
          totalAmount := line.2 * sp.sellingPrice,
          reference := some { rtype := .jobcard, rid := jobCardId,
                              number := invoiceNumber },
          performedBy := userId, notes := "Used in invoice" },
       rs ++ [{ partId := line.1, previousStock := sp.currentStock,
                deducted := line.2,
                newStock := sp.currentStock - line.2 }],
       es) := by
  unfold dfiStep
  dsimp only
  rw [hfp]
  dsimp only
  rw [if_neg (not_lt.mpr hle)]

/-- Errors only accumulate along the deduction loop. -/
theorem dfi_errors_mono (jobCardId : ℕ) (invoiceNumber : String)
    (userId : ℕ) :
    ∀ (lines : List (ℕ × ℤ)) (st : InvState) (rs : List DeductResult)
      (es : List DeductError),
      ∃ extra,
        (lines.foldl (dfiStep jobCardId invoiceNumber userId)
          (st, rs, es)).2.2 = es ++ extra := by
  intro lines
  induction lines with
  | nil => intro st rs es; exact ⟨[], by simp⟩
  | cons line rest ih =>
    intro st rs es
    rw [List.foldl_cons]
    cases hfp : findPart st line.1 with
    | none =>
      rw [dfiStep_missing jobCardId invoiceNumber userId st rs es line hfp]
      obtain ⟨extra, hx⟩ := ih st rs
        (es ++ [{ partId := line.1, error := "Part not found" }])
      exact ⟨{ partId := line.1, error := "Part not found" } :: extra,
        by rw [hx, List.append_assoc]; rfl⟩
    | some sp =>
      by_cases hins : sp.currentStock < line.2
      · rw [dfiStep_short jobCardId invoiceNumber userId st rs es line sp
          hfp hins]
        obtain ⟨extra, hx⟩ := ih st rs
          (es ++ [{ partId := line.1,
                    error := insufficientMsg sp.currentStock line.2 }])
        refine ⟨{ partId := line.1,
                  error := insufficientMsg sp.currentStock line.2 }
          :: extra, ?_⟩
        rw [hx, List.append_assoc]
        rfl
      · rw [dfiStep_found jobCardId invoiceNumber userId st rs es line sp
          hfp (not_lt.mp hins)]
        exact ih _ _ es

/-- On a satisfiable batch the deduction loop reports no errors, extends
the ledger with one sale entry per line referencing the job card, and
decrements every stock level by the total requested quantity. -/
theorem dfi_run_ok (jobCardId : ℕ) (invoiceNumber : String) (userId : ℕ) :
    ∀ (lines : List (ℕ × ℤ)) (st : InvState) (rs : List DeductResult)
      (es : List DeductError), batchOk st.parts lines = true →
      ∃ stF rsNew esN,
        lines.foldl (dfiStep jobCardId invoiceNumber userId) (st, rs, es) =
          (stF, rs ++ rsNew, es) ∧
        stF.ledger = st.ledger ++ esN ∧
        esN.length = lines.length ∧
        (∀ e ∈ esN, e.ltype = .sale ∧ e.reference =
          some { rtype := .jobcard, rid := jobCardId,
                 number := invoiceNumber }) ∧
        (∀ pid, stockOf stF pid =
          (stockOf st pid).map (fun s => s - reqTotal lines pid)) := by
  intro lines
  induction lines with
  | nil =>
    intro st rs es _
    refine ⟨st, [], [], by simp, by simp, rfl, by simp, ?_⟩
    intro pid
    cases h : stockOf st pid <;> simp [reqTotal_nil, h]
  | cons line rest ih =>
    intro st rs es h
    unfold batchOk at h
    cases hfp : st.parts line.1 with
    | none => rw [hfp] at h; exact absurd h (by simp)
    | some sp =>
      rw [hfp] at h
      dsimp only at h
      by_cases hle : line.2 ≤ sp.currentStock
      · rw [if_pos hle] at h
        rw [List.foldl_cons,
          dfiStep_found jobCardId invoiceNumber userId st rs es line sp
            hfp hle]
        obtain ⟨stF, rsNew, esN, heq, hled, hlen, hprops, hstocks⟩ :=
          ih (appendEntry (savePart st line.1
                { sp with currentStock := sp.currentStock - line.2 })
              { inventory := line.1, ltype := .sale, quantity := -line.2,
                previousStock := sp.currentStock,
                newStock := sp.currentStock - line.2,
                unitPrice := sp.sellingPrice,
                totalAmount := line.2 * sp.sellingPrice,
                reference := some { rtype := .jobcard, rid := jobCardId,
                                    number := invoiceNumber },
                performedBy := userId, notes := "Used in invoice" })
            (rs ++ [{ partId := line.1, previousStock := sp.currentStock,
                      deducted := line.2,
                      newStock := sp.currentStock - line.2 }]) es h
        refine ⟨stF,
          { partId := line.1, previousStock := sp.currentStock,
            deducted := line.2,
            newStock := sp.currentStock - line.2 } :: rsNew,
          { inventory := line.1, ltype := .sale, quantity := -line.2,
            previousStock := sp.currentStock,
            newStock := sp.currentStock - line.2,
            unitPrice := sp.sellingPrice,
            totalAmount := line.2 * sp.sellingPrice,
            reference := some { rtype := .jobcard, rid := jobCardId,
                                number := invoiceNumber },
            performedBy := userId, notes := "Used in invoice" } :: esN,
          ?_, ?_, ?_, ?_, ?_⟩
        · rw [heq, List.append_assoc]
          rfl
        · rw [hled, ledger_appendEntry, ledger_savePart,
            List.append_assoc]
          rfl
        · simp [hlen]
        · intro e he
          rcases List.mem_cons.mp he with rfl | he2
          · exact ⟨rfl, rfl⟩
          · exact hprops e he2
        · intro pid
          have h2 := hstocks pid
          rw [stockOf_appendEntry, stockOf_savePart] at h2
          rw [h2, reqTotal_cons]
          by_cases hpq : pid = line.1
          · have hsto : stockOf st pid = some sp.currentStock := by
              rw [hpq]
              show (st.parts line.1).map _ = _
              rw [hfp]
              rfl
            rw [if_pos hpq, hsto, if_pos hpq.symm]
            simp only [Option.map_some']
            congr 1
            ring
          · rw [if_neg hpq, if_neg (fun hh => hpq hh.symm)]
            cases hsto : stockOf st pid <;>
              simp only [Option.map_some', Option.map_none']
            congr 1
            ring
      · rw [if_neg hle] at h
        exact absurd h (by simp)

/-- On an unsatisfiable batch the deduction loop reports at least one
error. -/
theorem dfi_run_err (jobCardId : ℕ) (invoiceNumber : String) (userId : ℕ) :
    ∀ (lines : List (ℕ × ℤ)) (st : InvState) (rs : List DeductResult)
      (es : List DeductError), batchOk st.parts lines = false →
      ∃ x extra,
        (lines.foldl (dfiStep jobCardId invoiceNumber userId)
          (st, rs, es)).2.2 = es ++ x :: extra := by
  intro lines
  induction lines with
  | nil => intro st rs es h; exact absurd h (by simp [batchOk])
  | cons line rest ih =>
    intro st rs es h
    unfold batchOk at h
    rw [List.foldl_cons]
    cases hfp : st.parts line.1 with
    | none =>
      have hfp2 : findPart st line.1 = none := hfp
      rw [dfiStep_missing jobCardId invoiceNumber userId st rs es line hfp2]
      obtain ⟨extra, hx⟩ := dfi_errors_mono jobCardId invoiceNumber userId
        rest st rs (es ++ [{ partId := line.1, error := "Part not found" }])
      exact ⟨{ partId := line.1, error := "Part not found" }, extra,
        by rw [hx, List.append_assoc]; rfl⟩
    | some sp =>
      rw [hfp] at h
      dsimp only at h
      have hfp2 : findPart st line.1 = some sp := hfp
      by_cases hle : line.2 ≤ sp.currentStock
      · rw [if_pos hle] at h
        rw [dfiStep_found jobCardId invoiceNumber userId st rs es line sp
          hfp2 hle]
        exact ih _ _ es h
      · rw [dfiStep_short jobCardId invoiceNumber userId st rs es line sp
          hfp2 (not_le.mp hle)]
        obtain ⟨extra, hx⟩ := dfi_errors_mono jobCardId invoiceNumber userId
          rest st rs
          (es ++ [{ partId := line.1,
                    error := insufficientMsg sp.currentStock line.2 }])
        refine ⟨{ partId := line.1,
                  error := insufficientMsg sp.currentStock line.2 },
          extra, ?_⟩
        rw [hx, List.append_assoc]
        rfl

/-- A satisfiable batch with validated quantities has every line
satisfiable against the call-time stock levels. -/
theorem batchOk_initial :
    ∀ (lines : List (ℕ × ℤ)) (st : InvState),
      (∀ l ∈ lines, 1 ≤ l.2) → batchOk st.parts lines = true →
      ∀ l ∈ lines, lineFails st l = false := by
  intro lines
  induction lines with
  | nil => intro st _ _ l hl; exact absurd hl (by simp)
  | cons line rest ih =>
    intro st hq h l hl
    unfold batchOk at h
    cases hfp : st.parts line.1 with
    | none => rw [hfp] at h; exact absurd h (by simp)
    | some sp =>
      rw [hfp] at h
      dsimp only at h
      by_cases hle : line.2 ≤ sp.currentStock
      · rw [if_pos hle] at h
        rcases List.mem_cons.mp hl with rfl | hl2
        · unfold lineFails
          have hfp2 : findPart st l.1 = some sp := hfp
          rw [hfp2]
          simp [not_lt.mpr hle]
        · have hq1 : 1 ≤ line.2 := hq line (List.mem_cons_self line rest)
          have hrest := ih
            { parts := fun q => if q = line.1 then
                some { sp with currentStock := sp.currentStock - line.2 }
              else st.parts q, ledger := st.ledger }
            (fun x hx => hq x (List.mem_cons_of_mem line hx)) h l hl2
          unfold lineFails at hrest ⊢
          by_cases hpq : l.1 = line.1
          · have hfp2 : findPart st l.1 = some sp := by
              rw [show l.1 = line.1 from hpq]
              exact hfp
            rw [hfp2]
            have hview : findPart
                { parts := fun q => if q = line.1 then
                    some { sp with currentStock := sp.currentStock - line.2 }
                  else st.parts q, ledger := st.ledger } l.1 =
                some { sp with currentStock := sp.currentStock - line.2 }
                := by
              show (if l.1 = line.1 then _ else _) = _
              rw [if_pos hpq]
            rw [hview] at hrest
            simp only [decide_eq_false_iff_not, not_lt] at hrest ⊢
            omega
          · have hview : findPart
                { parts := fun q => if q = line.1 then
                    some { sp with currentStock := sp.currentStock - line.2 }
                  else st.parts q, ledger := st.ledger } l.1 =
                findPart st l.1 := by
              show (if l.1 = line.1 then _ else _) = _
              rw [if_neg hpq]
              rfl
            rw [hview] at hrest
            exact hrest
      · rw [if_neg hle] at h
        exact absurd h (by simp)

/-! ## Analysis of the returnFromInvoice loop -/

theorem rfiStep_missing (jobCardId : ℕ) (invoiceNumber reason : String)
    (userId : ℕ) (st : InvState) (rs : List ReturnResult) (line : ℕ × ℤ)
    (hfp : findPart st line.1 = none) :
    rfiStep jobCardId invoiceNumber reason userId (st, rs) line =
      (st, rs) := by
  unfold rfiStep
  dsimp only
  rw [hfp]

theorem rfiStep_found (jobCardId : ℕ) (invoiceNumber reason : String)
    (userId : ℕ) (st : InvState) (rs : List ReturnResult) (line : ℕ × ℤ)
    (sp : SparePart) (hfp : findPart st line.1 = some sp) :
    rfiStep jobCardId invoiceNumber reason userId (st, rs) line =
      (appendEntry (savePart st line.1
          { sp with currentStock := sp.currentStock + line.2 })
        { inventory := line.1, ltype := .ret, quantity := line.2,
          previousStock := sp.currentStock,
          newStock := sp.currentStock + line.2,
          unitPrice := sp.sellingPrice,
          totalAmount := line.2 * sp.sellingPrice,
          reference := some { rtype := .jobcard, rid := jobCardId,
                              number := invoiceNumber },
          performedBy := userId, notes := reason },
       rs ++ [{ partId := line.1, previousStock := sp.currentStock,
                returned := line.2,
                newStock := sp.currentStock + line.2 }]) := by
  unfold rfiStep
  dsimp only
  rw [hfp]

/-- Part existence is unchanged by a single committed write of an existing
document. -/
theorem lineExists_commit (st : InvState) (partId : ℕ)
    (spOld spNew : SparePart) (e : LedgerEntry)
    (hfp : findPart st partId = some spOld) (l : ℕ × ℤ) :
    lineExists (appendEntry (savePart st partId spNew) e) l =
      lineExists st l := by
  unfold lineExists
  rw [findPart_appendEntry, findPart_savePart]
  by_cases hq : l.1 = partId
  · rw [if_pos hq, hq, hfp]
    rfl
  · rw [if_neg hq]

/-- The return loop always commits: one return entry per existing line,
referencing the job card, and every stock level is credited with the total
returned quantity. -/
theorem rfi_run (jobCardId : ℕ) (invoiceNumber reason : String)
    (userId : ℕ) :
    ∀ (lines : List (ℕ × ℤ)) (st : InvState) (rs : List ReturnResult),
      ∃ stF rsNew esN,
        lines.foldl (rfiStep jobCardId invoiceNumber reason userId)
          (st, rs) = (stF, rs ++ rsNew) ∧
        stF.ledger = st.ledger ++ esN ∧
        esN.length = (lines.filter (fun l => lineExists st l)).length ∧
        (∀ e ∈ esN, e.ltype = .ret ∧ e.reference =
          some { rtype := .jobcard, rid := jobCardId,
                 number := invoiceNumber }) ∧
        (∀ pid, stockOf stF pid =
          (stockOf st pid).map (fun s => s + reqTotal lines pid)) := by
  intro lines
  induction lines with
  | nil =>
    intro st rs
    refine ⟨st, [], [], by simp, by simp, rfl, by simp, ?_⟩
    intro pid
    cases h : stockOf st pid <;> simp [reqTotal_nil, h]
  | cons line rest ih =>
    intro st rs
    rw [List.foldl_cons]
    cases hfp : findPart st line.1 with
    | none =>
      rw [rfiStep_missing jobCardId invoiceNumber reason userId st rs
        line hfp]
      obtain ⟨stF, rsNew, esN, heq, hled, hlen, hprops, hstocks⟩ :=
        ih st rs
      refine ⟨stF, rsNew, esN, heq, hled, ?_, hprops, ?_⟩
      · rw [hlen, List.filter_cons]
        have : lineExists st line = false := by
          unfold lineExists
          rw [hfp]
          rfl
        rw [this]
        simp
      · intro pid
        rw [hstocks pid, reqTotal_cons]
        by_cases hpq : line.1 = pid
        · have hnone : stockOf st pid = none := by
            unfold stockOf
            rw [← hpq]
            show (findPart st line.1).map _ = none
            rw [hfp]
            rfl
          rw [hnone]
          rfl
        · rw [if_neg hpq]
          cases hsto : stockOf st pid <;>
            simp only [Option.map_some', Option.map_none']
          congr 1
          ring
    | some sp =>
      rw [rfiStep_found jobCardId invoiceNumber reason userId st rs
        line sp hfp]
      obtain ⟨stF, rsNew, esN, heq, hled, hlen, hprops, hstocks⟩ :=
        ih (appendEntry (savePart st line.1
              { sp with currentStock := sp.currentStock + line.2 })
            { inventory := line.1, ltype := .ret, quantity := line.2,
              previousStock := sp.currentStock,
              newStock := sp.currentStock + line.2,
              unitPrice := sp.sellingPrice,
              totalAmount := line.2 * sp.sellingPrice,
              reference := some { rtype := .jobcard, rid := jobCardId,
                                  number := invoiceNumber },
              performedBy := userId, notes := reason })
          (rs ++ [{ partId := line.1, previousStock := sp.currentStock,
                    returned := line.2,
                    newStock := sp.currentStock + line.2 }])
      refine ⟨stF,
        { partId := line.1, previousStock := sp.currentStock,
          returned := line.2,
          newStock := sp.currentStock + line.2 } :: rsNew,
        { inventory := line.1, ltype := .ret, quantity := line.2,
          previousStock := sp.currentStock,
          newStock := sp.currentStock + line.2,
          unitPrice := sp.sellingPrice,
          totalAmount := line.2 * sp.sellingPrice,
          reference := some { rtype := .jobcard, rid := jobCardId,
                              number := invoiceNumber },
          performedBy := userId, notes := reason } :: esN,
        ?_, ?_, ?_, ?_, ?_⟩
      · rw [heq, List.append_assoc]
        rfl
      · rw [hled, ledger_appendEntry, ledger_savePart, List.append_assoc]
        rfl
      · have hex : lineExists st line = true := by
          unfold lineExists
          rw [hfp]
          rfl
        rw [List.filter_congr
          (fun x _ => lineExists_commit st line.1 sp
            { sp with currentStock := sp.currentStock + line.2 }
            { inventory := line.1, ltype := .ret, quantity := line.2,
              previousStock := sp.currentStock,
              newStock := sp.currentStock + line.2,
              unitPrice := sp.sellingPrice,
              totalAmount := line.2 * sp.sellingPrice,
              reference := some { rtype := .jobcard, rid := jobCardId,
                                  number := invoiceNumber },
              performedBy := userId, notes := reason } hfp x)] at hlen
        simp only [List.length_cons, hlen, List.filter_cons, hex]
        simp
      · intro e he
        rcases List.mem_cons.mp he with rfl | he2
        · exact ⟨rfl, rfl⟩
        · exact hprops e he2
      · intro pid
        have h2 := hstocks pid
        rw [stockOf_appendEntry, stockOf_savePart] at h2
        rw [h2, reqTotal_cons]
        by_cases hpq : pid = line.1
        · have hsto : stockOf st pid = some sp.currentStock := by
            rw [hpq]
            show (findPart st line.1).map _ = _
            rw [hfp]
            rfl
          rw [if_pos hpq, hsto, if_pos hpq.symm]
          simp only [Option.map_some']
          congr 1
          ring
        · rw [if_neg hpq, if_neg (fun hh => hpq hh.symm)]
          cases hsto : stockOf st pid <;>
            simp only [Option.map_some', Option.map_none']
          congr 1
          ring

/-! ## Helper lemmas for the claim theorems -/

theorem updateStatus_status (jc : JobCard) (s : JStatus) (userId : ℕ)
    (notes : String) : (jc.updateStatus s userId notes).status = s := by
  unfold JobCard.updateStatus
  dsimp only
  split_ifs <;> rfl

theorem updateStatus_jobItems (jc : JobCard) (s : JStatus) (userId : ℕ)
    (notes : String) :
    (jc.updateStatus s userId notes).jobItems = jc.jobItems := by
  unfold JobCard.updateStatus
  dsimp only
  split_ifs <;> rfl

theorem balance_gate_iff (x : ℚ) : 1 / 100 < max 0 x ↔ 1 / 100 < x := by
  rw [lt_max_iff]
  constructor
  · rintro (h | h)
    · norm_num at h
    · exact h
  · intro h
    exact Or.inr h

theorem round2_mono {a b : ℚ} (h : a ≤ b) : round2 a ≤ round2 b := by
  unfold round2
  have hf : ⌊a * 100 + 1 / 2⌋ ≤ ⌊b * 100 + 1 / 2⌋ :=
    Int.floor_le_floor (by linarith)
  have h100 : (0 : ℚ) < 100 := by norm_num
  exact (div_le_div_iff_of_pos_right h100).mpr (by exact_mod_cast hf)

/-! ## Claim C1 -/

/-- C1: in both status-change handlers (admin updateJobCard, mechanic
updateAssignedJobCardStatus), a request that changes the status to
delivered succeeds exactly when the current status is ready and the
balance due (grandTotal minus net completed payments) is at most 0.01;
otherwise it is rejected with an error and, the handler throwing before
any save, the stored job card is unchanged; and any successful transition
into delivered implies that gate held. -/
theorem delivered_only_from_ready_and_paid (jc : JobCard)
    (payments : List Payment) (jobCardId : ℕ) (s : JStatus)
    (userId : ℕ) (notes : String) (hs : s ≠ jc.status) :
    (s = .delivered → jc.status ≠ .ready →
      updateJobCard jc payments jobCardId (some s) userId =
        .error (.badRequest
          "Job card must be marked ready before it can be delivered")) ∧
    (s = .delivered → jc.status = .ready →
      1 / 100 <
        jc.billing.grandTotal - (getJobCardPayments payments jobCardId).2.1 →
      updateJobCard jc payments jobCardId (some s) userId =
        .error (.badRequest
          "Cannot mark delivered until payment is completed")) ∧
    (s = .delivered → jc.status = .ready →
      jc.billing.grandTotal - (getJobCardPayments payments jobCardId).2.1 ≤
        1 / 100 →
      updateJobCard jc payments jobCardId (some s) userId =
        .ok (jc.updateStatus .delivered userId
          "Status changed to delivered")) ∧
    (∀ jc2, updateJobCard jc payments jobCardId (some s) userId = .ok jc2 →
      jc2.status = .delivered → jc.status ≠ .delivered →
      jc.status = .ready ∧
        jc.billing.grandTotal -
          (getJobCardPayments payments jobCardId).2.1 ≤ 1 / 100) ∧
    (userId ∈ jc.assignedMechanicUserIds →
      (s = .delivered → jc.status ≠ .ready →
        updateAssignedJobCardStatus jc payments jobCardId s userId notes =
          .error (.badRequest
            "Job card must be marked ready before it can be delivered")) ∧
      (s = .delivered → jc.status = .ready →
        1 / 100 < jc.billing.grandTotal -
          (getJobCardPayments payments jobCardId).2.1 →
        updateAssignedJobCardStatus jc payments jobCardId s userId notes =
          .error (.badRequest
            "Cannot mark delivered until payment is completed")) ∧
      (s = .delivered → jc.status = .ready →
        jc.billing.grandTotal -
          (getJobCardPayments payments jobCardId).2.1 ≤ 1 / 100 →
        updateAssignedJobCardStatus jc payments jobCardId s userId notes =
          .ok (jc.updateStatus .delivered userId notes)) ∧
      (∀ jc2,
        updateAssignedJobCardStatus jc payments jobCardId s userId notes =
          .ok jc2 →
        jc2.status = .delivered → jc.status ≠ .delivered →
        jc.status = .ready ∧
          jc.billing.grandTotal -
            (getJobCardPayments payments jobCardId).2.1 ≤ 1 / 100)) := by
  have hgate : ∀ x : ℚ, (max 0 x > 1 / 100) ↔ 1 / 100 < x :=
    fun x => balance_gate_iff x
  refine ⟨?_, ?_, ?_, ?_, ?_⟩
  · intro hd hr
    subst hd
    unfold updateJobCard
    dsimp only
    rw [if_pos hs, if_pos rfl, if_pos hr]
  · intro hd hr hb
    subst hd
    unfold updateJobCard
    dsimp only
    rw [if_pos hs, if_pos rfl, if_neg (by rw [hr]; exact fun h => h rfl),
      if_pos (by exact (hgate _).mpr hb)]
  · intro hd hr hb
    subst hd
    unfold updateJobCard
    dsimp only
    rw [if_pos hs, if_pos rfl, if_neg (by rw [hr]; exact fun h => h rfl),
      if_neg (by
        rw [not_lt]
        unfold balanceDueOf
        exact max_le (by norm_num) hb)]
  · intro jc2 hok hd2 hnd
    by_cases hd : s = .delivered
    · subst hd
      by_cases hr : jc.status = .ready
      · refine ⟨hr, ?_⟩
        by_cases hb : 1 / 100 < jc.billing.grandTotal -
            (getJobCardPayments payments jobCardId).2.1
        · exfalso
          unfold updateJobCard at hok
          dsimp only at hok
          rw [if_pos hs, if_pos rfl, if_neg (by rw [hr]; exact fun h => h rfl),
            if_pos (by exact (hgate _).mpr hb)] at hok
          exact Except.noConfusion hok
        · exact not_lt.mp hb
      · exfalso
        unfold updateJobCard at hok
        dsimp only at hok
        rw [if_pos hs, if_pos rfl, if_pos hr] at hok
        exact Except.noConfusion hok
    · exfalso
      unfold updateJobCard at hok
      dsimp only at hok
      rw [if_pos hs, if_neg hd] at hok
      have hjc2 := Except.ok.inj hok
      rw [← hjc2, updateStatus_status] at hd2
      exact hd hd2
  · intro hm
    have hguard : ¬(userId ∉ jc.assignedMechanicUserIds) :=
      not_not_intro hm
    refine ⟨?_, ?_, ?_, ?_⟩
    · intro hd hr
      subst hd
      unfold updateAssignedJobCardStatus
      rw [if_neg hguard, if_pos hs, if_pos rfl, if_pos hr]
    · intro hd hr hb
      subst hd
      unfold updateAssignedJobCardStatus
      rw [if_neg hguard, if_pos hs, if_pos rfl,
        if_neg (by rw [hr]; exact fun h => h rfl),
        if_pos (by exact (hgate _).mpr hb)]
    · intro hd hr hb
      subst hd
      unfold updateAssignedJobCardStatus
      rw [if_neg hguard, if_pos hs, if_pos rfl,
        if_neg (by rw [hr]; exact fun h => h rfl),
        if_neg (by
          rw [not_lt]
          unfold balanceDueOf
          exact max_le (by norm_num) hb)]
    · intro jc2 hok hd2 hnd
      by_cases hd : s = .delivered
      · subst hd
        by_cases hr : jc.status = .ready
        · refine ⟨hr, ?_⟩
          by_cases hb : 1 / 100 < jc.billing.grandTotal -
              (getJobCardPayments payments jobCardId).2.1
          · exfalso
            unfold updateAssignedJobCardStatus at hok
            rw [if_neg hguard, if_pos hs, if_pos rfl,
              if_neg (by rw [hr]; exact fun h => h rfl),
              if_pos (by exact (hgate _).mpr hb)] at hok
            exact Except.noConfusion hok
          · exact not_lt.mp hb
        · exfalso
          unfold updateAssignedJobCardStatus at hok
          rw [if_neg hguard, if_pos hs, if_pos rfl, if_pos hr] at hok
          exact Except.noConfusion hok
      · exfalso
        unfold updateAssignedJobCardStatus at hok
        rw [if_neg hguard, if_pos hs, if_neg hd] at hok
        have hjc2 := Except.ok.inj hok
        rw [← hjc2, updateStatus_status] at hd2
        exact hd hd2

/-- C1 witness: the ready job card with its 212.40 total fully paid is
delivered; the same request from approved is rejected. -/
theorem delivered_only_from_ready_and_paid_witness :
    updateJobCard jcReady paymentsFull 1 (some .delivered) 5 =
      .ok (jcReady.updateStatus .delivered 5
        "Status changed to delivered") ∧
    updateJobCard { jcReady with status := .approved } paymentsFull 1
      (some .delivered) 5 =
      .error (.badRequest
        "Job card must be marked ready before it can be delivered") := by
  constructor
  · refine (delivered_only_from_ready_and_paid jcReady paymentsFull 1
      .delivered 5 "" (by decide)).2.2.1 rfl rfl ?_
    have hpaid : (getJobCardPayments paymentsFull 1).2.1 = 1062 / 5 := by
      simp [getJobCardPayments, paymentsFull, signedTotal]
    rw [hpaid]
    norm_num [jcReady]
  · exact (delivered_only_from_ready_and_paid
      { jcReady with status := .approved } paymentsFull 1
      .delivered 5 "" (by decide)).1 rfl (by decide)

/-! ## Claim C2 -/

/-- C2 counterexample: a batch of two lines on the same part, each line
individually within the call-time stock, still fails as a whole (the
second line is checked against the already-decremented session stock), so
the claim condition for success, read against call-time currentStock, does
not describe the code. -/
theorem deductForInvoice_duplicate_lines_cx :
    (∀ l ∈ [((1 : ℕ), (3 : ℤ)), ((1 : ℕ), (3 : ℤ))],
      lineFails cxStore l = false) ∧
    (deductForInvoice cxStore [(1, 3), (1, 3)] 7 "INV-7" 2).1 = cxStore ∧
    (∃ errs,
      (deductForInvoice cxStore [(1, 3), (1, 3)] 7 "INV-7" 2).2 =
        .error ("Stock deduction failed", errs) ∧ errs ≠ []) := by
  refine ⟨by decide, rfl, ⟨_, rfl, by decide⟩⟩

/-- C2 (amended): deductForInvoice is all-or-nothing.  When every line, in
processing order, finds its part with enough remaining stock, the call
commits: one sale ledger entry per line referencing the job card, and
every stock level drops by the total quantity the batch requests from it.
Otherwise the transaction aborts: the state is returned unchanged (zero
ledger writes, zero stock mutation) together with the non-empty list of
failing lines.  A line that is unsatisfiable against call-time stock
always forces the failing case. -/
theorem deductForInvoice_batch_atomic (st : InvState)
    (lines : List (ℕ × ℤ)) (jobCardId : ℕ) (invoiceNumber : String)
    (userId : ℕ) (hne : lines ≠ []) (hq : ∀ l ∈ lines, 1 ≤ l.2) :
    (batchOk st.parts lines = true →
      ∃ stF res esN,
        deductForInvoice st lines jobCardId invoiceNumber userId =
          (stF, .ok res) ∧
        stF.ledger = st.ledger ++ esN ∧
        esN.length = lines.length ∧
        (∀ e ∈ esN, e.ltype = .sale ∧ e.reference =
          some { rtype := .jobcard, rid := jobCardId,
                 number := invoiceNumber }) ∧
        (∀ pid, stockOf stF pid =
          (stockOf st pid).map (fun s => s - reqTotal lines pid))) ∧
    (batchOk st.parts lines = false →
      ∃ errs,
        deductForInvoice st lines jobCardId invoiceNumber userId =
          (st, .error ("Stock deduction failed", errs)) ∧ errs ≠ []) ∧
    ((∃ l ∈ lines, lineFails st l = true) →
      batchOk st.parts lines = false) := by
  refine ⟨?_, ?_, ?_⟩
  · intro hb
    obtain ⟨stF, rsNew, esN, heq, hled, hlen, hprops, hstocks⟩ :=
      dfi_run_ok jobCardId invoiceNumber userId lines st [] [] hb
    refine ⟨stF, rsNew, esN, ?_, hled, hlen, hprops, hstocks⟩
    unfold deductForInvoice
    rw [if_neg hne]
    dsimp only
    rw [heq]
    simp
  · intro hb
    obtain ⟨x, extra, hx⟩ :=
      dfi_run_err jobCardId invoiceNumber userId lines st [] [] hb
    rw [List.nil_append] at hx
    refine ⟨x :: extra, ?_, by simp⟩
    unfold deductForInvoice
    rw [if_neg hne]
    dsimp only
    rw [hx]
    simp
  · rintro ⟨l, hl, hfail⟩
    cases hb : batchOk st.parts lines
    · rfl
    · have hok := batchOk_initial lines st hq hb l hl
      rw [hfail] at hok
      exact absurd hok (by simp)

/-- C2 witness: a single satisfiable line against the one-item store
commits with one sale entry. -/
theorem deductForInvoice_batch_atomic_witness :
    ∃ stF res esN,
      deductForInvoice cxStore [(1, 2)] 7 "INV-7" 2 = (stF, .ok res) ∧
      stF.ledger = cxStore.ledger ++ esN ∧
      esN.length = 1 ∧
      (∀ e ∈ esN, e.ltype = .sale ∧ e.reference =
        some { rtype := .jobcard, rid := 7, number := "INV-7" }) ∧
      (∀ pid, stockOf stF pid =
        (stockOf cxStore pid).map
          (fun s => s - reqTotal [(1, 2)] pid)) :=
  (deductForInvoice_batch_atomic cxStore [(1, 2)] 7 "INV-7" 2
    (by decide) (by decide)).1 (by decide)

/-! ## Claim C3 -/

/-- C3: along any sequence of validated stock requests currentStock stays
non-negative, and the two operations that could drive it below zero
reject: a manual deduction above the available stock fails with an error
and the untouched state, and a negative adjustment target likewise. -/
theorem stock_never_negative :
    (∀ (userId : ℕ) (ops : List StockOp) (st : InvState), nonNeg st →
      (∀ op ∈ ops, validReq op) → nonNeg (applyOps st userId ops)) ∧
    (∀ st partId quantity reason notes userId sp,
      findPart st partId = some sp → sp.currentStock < quantity →
      ∃ msg, deductStock st partId quantity reason notes userId =
        (st, .error (.badRequest msg))) ∧
    (∀ st partId newQuantity notes userId, newQuantity < 0 →
      adjustStock st partId newQuantity notes userId =
        (st, .error (.badRequest "New quantity must be 0 or greater"))) := by
  refine ⟨?_, ?_, ?_⟩
  · intro userId ops st h hv
    exact nonNeg_applyOps userId ops st hv h
  · intro st partId quantity reason notes userId sp hfp hlt
    unfold deductStock
    by_cases hq : quantity ≤ 0
    · exact ⟨"Quantity must be greater than 0", by rw [if_pos hq]⟩
    · refine ⟨"Insufficient stock. Available: " ++
        toString sp.currentStock, ?_⟩
      rw [if_neg hq, hfp]
      dsimp only
      rw [if_pos hlt]
  · intro st partId newQuantity notes userId hneg
    unfold adjustStock
    rw [if_pos hneg]

/-- C3 witness: after creating an item with 5 units and deducting 3 the
stock is non-negative, and deducting 9 from the 5-unit store is rejected
with the store unchanged. -/
theorem stock_never_negative_witness :
    nonNeg (applyOps InvState.empty 0
      [.create 1 "Oil filter" 5 1 40 60, .deduct 1 3 "damage" ""]) ∧
    (∃ msg, deductStock cxStore 1 9 "other" "" 0 =
      (cxStore, .error (.badRequest msg))) := by
  constructor
  · refine stock_never_negative.1 0
      [.create 1 "Oil filter" 5 1 40 60, .deduct 1 3 "damage" ""]
      InvState.empty ?_ (by decide)
    intro pid sp h
    simp [InvState.empty] at h
  · exact stock_never_negative.2.1 cxStore 1 9 "other" "" 0 _ rfl
      (by decide)

/-! ## Claim C4 -/

/-- C4 evidence: the source enforces no terminal state.  On a delivered
job card, addJobItem appends an item and succeeds, removeJobItem removes
one and succeeds, and the admin status handler happily moves the card from
delivered back to in-progress. -/
theorem terminal_states_unenforced :
    (addJobItem jcDelivered .labour "Extra labour" 1 100 0 9).jobItems.length
        = jcDelivered.jobItems.length + 1 ∧
    (addJobItem jcDelivered .labour "Extra labour" 1 100 0 9).status =
      .delivered ∧
    (∃ jc2, removeJobItem jcDelivered 0 = .ok jc2 ∧ jc2.jobItems = []) ∧
    updateJobCard jcDelivered [] 1 (some .inProgress) 9 =
      .ok (jcDelivered.updateStatus .inProgress 9 "Status changed") ∧
    (jcDelivered.updateStatus .inProgress 9 "Status changed").status =
      .inProgress := by
  refine ⟨by decide, by decide, ⟨_, rfl, by decide⟩, rfl, by decide⟩

/-! ## Claim C5 -/

/-- C5 counterexample: with a negative taxRate (storable, since the job
card schema puts no lower bound on billing.taxRate and the enquiry
conversion path spreads unvalidated client data into JobCard.create), the
code clamps the taxAmount output at zero while the claimed formula
round2(afterDiscount * taxRate / 100) yields -100. -/
theorem calculateBilling_negative_taxRate_cx :
    (calculateBilling
      [{ itemType := .labour, description := "L", quantity := 1,
         unitPrice := 100, discount := 0, total := 100,
         isApproved := true }]
      { subtotal := 0, discount := 0, discountReason := "",
        taxRate := -100, taxAmount := 0, grandTotal := 0 }
      false).taxAmount = 0 ∧
    (specBilling
      [{ itemType := .labour, description := "L", quantity := 1,
         unitPrice := 100, discount := 0, total := 100,
         isApproved := true }] 0 (-100)).2.1 = -100 ∧
    (0 : ℚ) ≠ -100 := by
  refine ⟨?_, ?_, by norm_num⟩
  · simp [calculateBilling]
    norm_num [round2]
  · simp [specBilling]
    norm_num [round2]

/-- C5 (amended): recomputing billing with all items yields exactly the
specified formulas with the two clamps the source applies before
rounding: subtotal = round2(sum of unrounded item totals), taxAmount =
round2(max(0, afterDiscount * taxRate / 100)), grandTotal =
round2(max(0, afterDiscount + taxAmount)), with afterDiscount =
max(0, subtotal - max(0, discount)) and rounding only at the three output
fields; the discount and taxRate inputs are passed through unchanged.  In
particular the scenario item of price 100, quantity 2, discount 20,
taxRate 18 gives subtotal 200, taxAmount 32.40, grandTotal 212.40. -/
theorem calculateBilling_matches_spec (items : List JobItem)
    (billing : Billing) :
    ((calculateBilling items billing false).subtotal,
      (calculateBilling items billing false).taxAmount,
      (calculateBilling items billing false).grandTotal) =
      specBillingAmended items billing.discount billing.taxRate ∧
    (calculateBilling items billing false).discount = billing.discount ∧
    (calculateBilling items billing false).taxRate = billing.taxRate ∧
    calculateBilling
      [{ itemType := .labour, description := "Service", quantity := 2,
         unitPrice := 100, discount := 0, total := 200,
         isApproved := true }]
      { subtotal := 0, discount := 20, discountReason := "",
        taxRate := 18, taxAmount := 0, grandTotal := 0 } false =
      { subtotal := 200, discount := 20, discountReason := "",
        taxRate := 18, taxAmount := 162 / 5,
        grandTotal := 1062 / 5 } := by
  refine ⟨rfl, rfl, rfl, ?_⟩
  simp [calculateBilling]
  norm_num [round2]

/-! ## Claim C6 -/

/-- C6: processRefund rejects a refund of a non-completed payment, rejects
an amount above the original, and otherwise appends a completed
refund-typed payment while flipping the original to refunded in the same
request; every rejected call returns the collection unchanged. -/
theorem processRefund_checks_and_atomic (payments : List Payment)
    (paymentId : ℕ) (amount : ℚ) (reason : String) (userId freshId : ℕ)
    (orig : Payment)
    (hfind : payments.find? (fun p => p.id = paymentId) = some orig)
    (hamt : 1 / 100 ≤ amount) :
    (orig.status ≠ .completed →
      processRefund payments paymentId amount reason userId freshId =
        (payments,
          .error (.badRequest "Can only refund completed payments"))) ∧
    (orig.status = .completed → orig.amount < amount →
      processRefund payments paymentId amount reason userId freshId =
        (payments, .error
          (.badRequest "Refund amount cannot exceed original payment"))) ∧
    (orig.status = .completed → amount ≤ orig.amount →
      ∃ refund updated,
        processRefund payments paymentId amount reason userId freshId =
          (updated ++ [refund], .ok refund) ∧
        refund.paymentType = .refund ∧ refund.status = .completed ∧
        refund.amount = amount ∧ refund.jobCard = orig.jobCard ∧
        updated.length = payments.length ∧
        updated.find? (fun p => p.id = paymentId) = some
          { orig with
              status := .refunded,
              refundDetails := some
                { refundedAmount := amount,
                  reason := reason, refundedBy := userId } } ∧
        (∀ p ∈ payments, p.id ≠ paymentId → p ∈ updated)) := by
  have hid : orig.id = paymentId := by
    have := List.find?_some hfind
    simpa using this
  refine ⟨?_, ?_, ?_⟩
  · intro hst
    unfold processRefund
    rw [hfind]
    dsimp only
    rw [if_pos hst]
  · intro hst hgt
    unfold processRefund
    rw [hfind]
    dsimp only
    rw [if_neg (fun hn => hn hst), if_pos hgt]
  · intro hst hle
    unfold processRefund
    rw [hfind]
    dsimp only
    rw [if_neg (fun hn => hn hst), if_neg (not_lt.mpr hle),
      if_neg (not_lt.mpr (le_trans (by norm_num) hamt))]
    refine ⟨_, _, rfl, rfl, rfl, rfl, rfl, by simp, ?_, ?_⟩
    · rw [List.find?_map]
      have hpred : ((fun p : Payment => decide (p.id = paymentId)) ∘
          (fun p : Payment =>
            if p.id = paymentId then
              { p with
                  status := .refunded,
                  refundDetails := some
                    { refundedAmount := amount,
                      reason := reason, refundedBy := userId } }
            else p)) = (fun p : Payment => decide (p.id = paymentId)) := by
        funext p
        by_cases hp : p.id = paymentId
        · simp [hp]
        · simp [hp]
      rw [hpred, hfind]
      simp [hid]
    · intro p hp hpn
      have hmem : (if p.id = paymentId then
          ({ p with
               status := .refunded,
               refundDetails := some
                 { refundedAmount := amount,
                   reason := reason, refundedBy := userId } } : Payment)
          else p) ∈ payments.map (fun p : Payment =>
            if p.id = paymentId then
              { p with
                  status := .refunded,
                  refundDetails := some
                    { refundedAmount := amount,
                      reason := reason, refundedBy := userId } }
            else p) := List.mem_map_of_mem _ hp
      rw [if_neg hpn] at hmem
      exact hmem

/-- C6 witness: the 212.40 payment refuses a 300 refund and accepts a
212.40 refund, flipping the original. -/
theorem processRefund_checks_and_atomic_witness :
    processRefund paymentsFull 1 300 "overcharge" 9 2 =
      (paymentsFull, .error
        (.badRequest "Refund amount cannot exceed original payment")) ∧
    (∃ refund updated,
      processRefund paymentsFull 1 (1062 / 5) "overcharge" 9 2 =
        (updated ++ [refund], .ok refund) ∧
      refund.paymentType = .refund ∧ refund.status = .completed ∧
      refund.amount = 1062 / 5) := by
  constructor
  · refine (processRefund_checks_and_atomic paymentsFull 1 300
      "overcharge" 9 2 _ rfl (by norm_num)).2.1 rfl ?_
    norm_num [paymentsFull]
  · obtain ⟨refund, updated, heq, hty, hstat, hamt, -⟩ :=
      (processRefund_checks_and_atomic paymentsFull 1 (1062 / 5)
        "overcharge" 9 2 _ rfl (by norm_num)).2.2 rfl
        (by norm_num [paymentsFull])
    exact ⟨refund, updated, heq, hty, hstat, hamt⟩

/-! ## Claim C7 -/

/-- C7: starting from any ledger-consistent store, after any sequence of
stock requests every ledger entry satisfies newStock = previousStock +
quantity, and every item's currentStock equals the previousStock of its
first ledger entry plus the sum of the signed quantity deltas of all its
entries. -/
theorem ledger_consistency (userId : ℕ) (ops : List StockOp)
    (st : InvState) (h : ledgerOk st) :
    entriesOk (applyOps st userId ops) ∧
    (∀ pid sp e0 rest, (applyOps st userId ops).parts pid = some sp →
      entriesFor (applyOps st userId ops) pid = e0 :: rest →
      sp.currentStock =
        e0.previousStock + ((e0 :: rest).map (·.quantity)).sum) := by
  have h2 := ledgerOk_applyOps userId ops st h
  refine ⟨h2.1, ?_⟩
  intro pid sp e0 rest hp he
  have hc := h2.2.2 pid sp hp
  rw [he] at hc
  exact hc

/-- C7 witness: a create, restock, invoice deduction and damage write-off
from the empty store keep the ledger consistent. -/
theorem ledger_consistency_witness :
    entriesOk (applyOps InvState.empty 0
      [.create 1 "Oil filter" 5 1 40 60, .add 1 3 none "",
       .invoiceDeduct [(1, 2)] 7 "INV-7", .deduct 1 1 "damage" ""]) ∧
    (∀ pid sp e0 rest,
      (applyOps InvState.empty 0
        [.create 1 "Oil filter" 5 1 40 60, .add 1 3 none "",
         .invoiceDeduct [(1, 2)] 7 "INV-7",
         .deduct 1 1 "damage" ""]).parts pid = some sp →
      entriesFor (applyOps InvState.empty 0
        [.create 1 "Oil filter" 5 1 40 60, .add 1 3 none "",
         .invoiceDeduct [(1, 2)] 7 "INV-7",
         .deduct 1 1 "damage" ""]) pid = e0 :: rest →
      sp.currentStock =
        e0.previousStock + ((e0 :: rest).map (·.quantity)).sum) := by
  refine ledger_consistency 0 _ InvState.empty ⟨?_, ?_, ?_⟩
  · intro e he
    exact absurd he (List.not_mem_nil e)
  · intro e he
    exact absurd he (List.not_mem_nil e)
  · intro pid sp hp
    exact absurd hp (by simp [InvState.empty])

/-! ## Claim C8 -/

/-- C8 counterexample: a sub-cent item total rounds the grand total below
the unrounded afterDiscount even at taxRate 0, refuting grandTotal >=
afterDiscount as stated. -/
theorem grandTotal_rounding_cx :
    (calculateBilling
      [{ itemType := .labour, description := "T", quantity := 1,
         unitPrice := 1 / 250, discount := 0, total := 1 / 250,
         isApproved := true }]
      { subtotal := 0, discount := 0, discountReason := "", taxRate := 0,
        taxAmount := 0, grandTotal := 0 } false).grandTotal <
      max 0 ((([({ itemType := .labour, description := "T",
                   quantity := 1, unitPrice := 1 / 250, discount := 0,
                   total := 1 / 250,
                   isApproved := true } : JobItem)].map (·.total)).sum) -
        max 0 (0 : ℚ)) := by
  simp [calculateBilling]
  norm_num [round2]

/-- C8 (amended): for any items, discount and non-negative taxRate the
grandTotal output is an integer number of hundredths, and it is at least
the 2-decimal rounding of the unrounded afterDiscount (the unrounded
afterDiscount itself can exceed it by less than half a cent). -/
theorem grandTotal_two_decimals (items : List JobItem) (billing : Billing)
    (htax : 0 ≤ billing.taxRate) :
    (∃ n : ℤ, (calculateBilling items billing false).grandTotal =
      (n : ℚ) / 100) ∧
    round2 (max 0 ((items.map (·.total)).sum - max 0 billing.discount)) ≤
      (calculateBilling items billing false).grandTotal := by
  constructor
  · exact ⟨⌊max 0 ((max 0 ((items.map (·.total)).sum -
      max 0 billing.discount)) +
      (max 0 ((items.map (·.total)).sum - max 0 billing.discount)) *
        billing.taxRate / 100) * 100 + 1 / 2⌋, rfl⟩
  · have hA : (0 : ℚ) ≤
        max 0 ((items.map (·.total)).sum - max 0 billing.discount) :=
      le_max_left 0 _
    have htaxAmt : (0 : ℚ) ≤
        (max 0 ((items.map (·.total)).sum - max 0 billing.discount)) *
          billing.taxRate / 100 :=
      div_nonneg (mul_nonneg hA htax) (by norm_num)
    have key : max 0 ((items.map (·.total)).sum - max 0 billing.discount) ≤
        max 0 ((max 0 ((items.map (·.total)).sum -
          max 0 billing.discount)) +
          (max 0 ((items.map (·.total)).sum - max 0 billing.discount)) *
            billing.taxRate / 100) :=
      le_trans (by linarith) (le_max_right 0 _)
    exact round2_mono key

/-- C8 witness: the scenario billing yields 212.40, an exact number of
hundredths at least round2(180). -/
theorem grandTotal_two_decimals_witness :
    (∃ n : ℤ, (calculateBilling
      [{ itemType := .labour, description := "Service", quantity := 2,
         unitPrice := 100, discount := 0, total := 200,
         isApproved := true }]
      { subtotal := 0, discount := 20, discountReason := "",
        taxRate := 18, taxAmount := 0, grandTotal := 0 }
      false).grandTotal = (n : ℚ) / 100) ∧
    round2 (max 0
      ((([({ itemType := .labour, description := "Service",
             quantity := 2, unitPrice := 100, discount := 0,
             total := 200,
             isApproved := true } : JobItem)].map (·.total)).sum) -
        max 0 (20 : ℚ))) ≤
      (calculateBilling
        [{ itemType := .labour, description := "Service", quantity := 2,
           unitPrice := 100, discount := 0, total := 200,
           isApproved := true }]
        { subtotal := 0, discount := 20, discountReason := "",
          taxRate := 18, taxAmount := 0, grandTotal := 0 }
        false).grandTotal :=
  grandTotal_two_decimals
    [{ itemType := .labour, description := "Service", quantity := 2,
       unitPrice := 100, discount := 0, total := 200,
       isApproved := true }]
    { subtotal := 0, discount := 20, discountReason := "",
      taxRate := 18, taxAmount := 0, grandTotal := 0 }
    (by norm_num)

/-! ## Claim C9 -/

/-- C9 counterexample: a return batch naming only a missing inventory item
does not fail; the missing line is silently skipped and the call reports
success with no results. -/
theorem returnFromInvoice_missing_item_cx :
    returnFromInvoice InvState.empty [(1, 2)] 3 "INV-3" "damaged" 4 =
      (InvState.empty, .ok []) ∧
    findPart InvState.empty 1 = none := ⟨rfl, rfl⟩

/-- C9 (amended): a non-empty return batch never fails: lines whose part
is missing are skipped silently (no stock change, no entry, no error),
every line whose part exists credits that part and writes one return
entry referencing the job card, and only an empty parts array is
rejected. -/
theorem returnFromInvoice_never_fails (st : InvState)
    (lines : List (ℕ × ℤ)) (jobCardId : ℕ)
    (invoiceNumber reason : String) (userId : ℕ) (hne : lines ≠ []) :
    (∃ stF res esN,
      returnFromInvoice st lines jobCardId invoiceNumber reason userId =
        (stF, .ok res) ∧
      stF.ledger = st.ledger ++ esN ∧
      esN.length = (lines.filter (fun l => lineExists st l)).length ∧
      (∀ e ∈ esN, e.ltype = .ret ∧ e.reference =
        some { rtype := .jobcard, rid := jobCardId,
               number := invoiceNumber }) ∧
      (∀ pid, stockOf stF pid =
        (stockOf st pid).map (fun s => s + reqTotal lines pid))) ∧
    (∀ st2 : InvState,
      returnFromInvoice st2 [] jobCardId invoiceNumber reason userId =
        (st2, .error (.badRequest "Parts array is required"))) := by
  constructor
  · obtain ⟨stF, rsNew, esN, heq, hled, hlen, hprops, hstocks⟩ :=
      rfi_run jobCardId invoiceNumber reason userId lines st []
    refine ⟨stF, [] ++ rsNew, esN, ?_, hled, hlen, hprops, hstocks⟩
    unfold returnFromInvoice
    rw [if_neg hne]
    dsimp only
    rw [heq]
  · intro st2
    unfold returnFromInvoice
    rw [if_pos rfl]

/-- C9 witness: returning two units of the existing item 1 credits its
stock and always succeeds. -/
theorem returnFromInvoice_never_fails_witness :
    ∃ stF res esN,
      returnFromInvoice cxStore [(1, 2)] 3 "INV-3" "damaged" 4 =
        (stF, .ok res) ∧
      stF.ledger = cxStore.ledger ++ esN ∧
      esN.length = ([((1 : ℕ), (2 : ℤ))].filter
        (fun l => lineExists cxStore l)).length ∧
      (∀ e ∈ esN, e.ltype = .ret ∧ e.reference =
        some { rtype := .jobcard, rid := 3, number := "INV-3" }) ∧
      (∀ pid, stockOf stF pid =
        (stockOf cxStore pid).map
          (fun s => s + reqTotal [(1, 2)] pid)) :=
  (returnFromInvoice_never_fails cxStore [(1, 2)] 3 "INV-3" "damaged" 4
    (by decide)).1

/-! ## Claim C10 -/

/-- C10 counterexample: the toJSON transform deletes the checkout token
only when it is truthy, so an empty-string token survives serialization:
two payments differing only in their token values (empty vs non-empty)
serialize differently. -/
theorem paymentToJSON_empty_token_cx :
    paymentToJSON cxPayment ≠
      paymentToJSON (setCheckoutToken cxPayment (some "tok")) ∧
    setCheckoutToken cxPayment (some "tok") =
      { cxPayment with
          checkout :=
            some { token := some "tok", expiresAt := some 100 } } ∧
    cxPayment.checkout = some { token := some "", expiresAt := some 100 }
    := by
  refine ⟨?_, rfl, rfl⟩
  intro h
  have := congrArg (fun p : Payment => p.checkout) h
  simp [paymentToJSON, cxPayment, setCheckoutToken] at this

/-- C10 (amended): the serialized form of a payment never carries a
non-empty checkout token, and two payments that differ only in their
checkout tokens serialize identically whenever neither token is the empty
string (the JS truthiness guard skips deletion exactly for empty
tokens). -/
theorem paymentToJSON_scrubs_token (p : Payment) (t1 t2 : Option String)
    (h1 : t1 ≠ some "") (h2 : t2 ≠ some "") :
    paymentToJSON (setCheckoutToken p t1) =
      paymentToJSON (setCheckoutToken p t2) ∧
    (∀ c s, (paymentToJSON p).checkout = some c → c.token = some s →
      s = "") := by
  constructor
  · cases hc : p.checkout with
    | none => simp [setCheckoutToken, hc]
    | some c =>
      have key : ∀ t : Option String, t ≠ some "" →
          paymentToJSON { p with checkout := some { c with token := t } } =
          { p with checkout := some { c with token := none } } := by
        intro t ht
        cases t with
        | none => rfl
        | some s =>
          have hs : s ≠ "" := fun h => ht (by rw [h])
          unfold paymentToJSON
          dsimp only
          rw [if_pos hs]
      unfold setCheckoutToken
      rw [hc]
      simp only [Option.map_some']
      rw [key t1 h1, key t2 h2]
  · intro c s hcj hts
    cases hc : p.checkout with
    | none =>
      unfold paymentToJSON at hcj
      rw [hc] at hcj
      dsimp only at hcj
      rw [hc] at hcj
      exact Option.noConfusion hcj
    | some c0 =>
      unfold paymentToJSON at hcj
      rw [hc] at hcj
      dsimp only at hcj
      cases ht : c0.token with
      | none =>
        rw [ht] at hcj
        dsimp only at hcj
        rw [hc] at hcj
        have hcc := Option.some.inj hcj
        rw [← hcc, ht] at hts
        exact Option.noConfusion hts
      | some s0 =>
        rw [ht] at hcj
        dsimp only at hcj
        by_cases hs0 : s0 = ""
        · rw [if_neg (fun hn => hn hs0)] at hcj
          rw [hc] at hcj
          have hcc := Option.some.inj hcj
          rw [← hcc, ht] at hts
          have := Option.some.inj hts
          rw [← this, hs0]
        · rw [if_pos hs0] at hcj
          dsimp only at hcj
          have hcc := Option.some.inj hcj
          rw [← hcc] at hts
          exact Option.noConfusion hts

/-- C10 witness: two distinct non-empty tokens serialize to the same
payment document. -/
theorem paymentToJSON_scrubs_token_witness :
    paymentToJSON (setCheckoutToken cxPayment (some "a")) =
      paymentToJSON (setCheckoutToken cxPayment (some "b")) ∧
    (∀ c s,
      (paymentToJSON (setCheckoutToken cxPayment (some "a"))).checkout =
        some c → c.token = some s → s = "") :=
  ⟨(paymentToJSON_scrubs_token cxPayment (some "a") (some "b")
      (by simp) (by simp)).1,
   (paymentToJSON_scrubs_token (setCheckoutToken cxPayment (some "a"))
      none none (by simp) (by simp)).2⟩

end ClutchGear
